import Mathlib

/-!
Verification development for the parent-child chunking, embedding and
reciprocal-rank-fusion retrieval engine of the hospital-management
application.  Programs are shallowly embedded: JavaScript strings are
lists of characters, floating point scores are rationals, the external
collaborators (embedding provider, vector index, relational store,
reranker) are explicit oracles supplied through an environment, and the
fallible asynchronous orchestration runs in a state-and-exception monad
whose fault schedule decides which external call throws.
-/

set_option autoImplicit false

namespace FypRag

/-- Strings are modelled as lists of characters. -/
abbrev Str := List Char

/-! ## Hierarchical text splitter (src/unnamed/part_004, textSplitterForRag) -/

/-- Lookahead split, modelling JavaScript String.split on the zero-width
regular expression built from a heading marker.  The string is cut before
every occurrence of the marker at a position strictly after the start of
the piece being accumulated; no characters are consumed and no empty
pieces arise.  A zero-width match at the start of the current piece is
skipped, exactly as the ECMAScript split algorithm prescribes. -/
def splitAux (header : Str) : Str → Str → List Str
  | current, [] => [current]
  | current, c :: rest =>
    if !current.isEmpty && header.isPrefixOf (c :: rest) then
      current :: splitAux header [c] rest
    else
      splitAux header (current ++ [c]) rest

/-- The pieces of a content block cut at every occurrence of a heading
marker, the marker staying attached to the piece it opens. -/
def splitPieces (header content : Str) : List Str := splitAux header [] content

/-- The four markdown heading markers, coarsest to finest, as in the
source's headers array. -/
def headers : List Str :=
  ["\n# ".data, "\n## ".data, "\n### ".data, "\n#### ".data]

/-- The greedy re-accumulation loop of splitByHeader: pieces are packed
into an output segment while the running total stays within maxLength; an
oversized piece is flushed standalone through the recursive splitter
(passed in as recSplit, which may report fuel exhaustion with none). -/
def accumLoop (maxLength : Nat) (recSplit : Str → Option (List Str)) :
    List Str → Str → List Str → Option (List Str)
  | [], accumulated, result =>
    some (result ++ if accumulated = [] then [] else [accumulated])
  | part :: rest, accumulated, result =>
    if maxLength < part.length then
      match recSplit part with
      | none => none
      | some sub =>
        accumLoop maxLength recSplit rest []
          ((if accumulated = [] then result else result ++ [accumulated]) ++ sub)
    else if accumulated ≠ [] ∧ maxLength < accumulated.length + part.length then
      accumLoop maxLength recSplit rest part (result ++ [accumulated])
    else
      accumLoop maxLength recSplit rest (accumulated ++ part) result

/-- The recursive header-level splitter of textSplitterForRag.  The fuel
argument is an artifact of the embedding that bounds the recursion depth;
the development proves that fuel headers.length + 1 always suffices, which
is the content of the termination claim. -/
def splitByHeader (maxLength : Nat) : Nat → Str → Nat → Option (List Str)
  | 0, _, _ => none
  | fuel + 1, content, headerLevel =>
    if content.length ≤ maxLength then some [content]
    else if headers.length ≤ headerLevel then some [content]
    else if (splitPieces (headers.getD headerLevel []) content).length = 1 then
      splitByHeader maxLength fuel content (headerLevel + 1)
    else
      accumLoop maxLength (fun p => splitByHeader maxLength fuel p (headerLevel + 1))
        (splitPieces (headers.getD headerLevel []) content) [] []

/-- Header-aware recursive splitter producing ordered parent chunks
bounded (when structurally possible) by maxLength characters.  The source
default for maxLength is 4000. -/
def textSplitterForRag (text : Str) (maxLength : Nat := 4000) : List Str :=
  (splitByHeader maxLength (headers.length + 1) text 0).getD []

/-! ## Data model (prisma schema and Pinecone metadata) -/

/-- Lookup in an association list keyed by strings (prisma findUnique /
JavaScript Map.get; keys are unique in every store built here). -/
def alookup {α : Type} (key : Str) : List (Str × α) → Option α
  | [] => none
  | (k, v) :: rest => if k = key then some v else alookup key rest

/-- A Document row, restricted to the columns the ingestion engine reads. -/
structure DocRow where
  isIngested : Bool
  ragSubtype : Option Str
  deriving DecidableEq, Repr

/-- A ParentChunk row. -/
structure ParentRow where
  id : Str
  documentId : Str
  parentIndex : Nat
  parentText : Str
  deriving DecidableEq, Repr

/-- A RagChunk row linking a child fragment to its parent chunk and its
vector-index key. -/
structure RagRow where
  documentId : Str
  parentChunkId : Str
  chunkIndex : Nat
  chunkText : Str
  pineconeId : Str
  deriving DecidableEq, Repr

/-- The metadata attached to a vector-index entry.  The source writes an
open string-keyed map; the general ingestion path omits the patient fields,
modelled here as patient = false and patientId = none. -/
structure Metadata where
  documentId : Str
  documentTitle : Str
  parentChunkId : Option Str
  childText : Str
  parentIndex : Nat
  childIndex : Nat
  type : Str
  patient : Bool
  patientId : Option Str
  deriving DecidableEq, Repr

/-- One entry of the external vector index. -/
structure VecEntry where
  id : Str
  values : List Rat
  metadata : Metadata
  deriving DecidableEq, Repr

/-- The durable state the engine touches: the three relational stores and
the vector index. -/
structure Stores where
  documents : List (Str × DocRow)
  parentChunks : List ParentRow
  ragChunks : List RagRow
  vectors : List VecEntry
  deriving DecidableEq, Repr

/-! ## Ingestion orchestrator (src/utils/embeddings.ts)

Every external call (embedding provider, vector index, relational store)
is a suspension point that may throw.  The embedding runs in a
state-and-exception monad; an environment carries a fault schedule, indexed
by a call counter (the clock), deciding which call throws, together with
the data the embedding provider returns.  The source launches parents
1..N concurrently and awaits them together; since each parent's writes are
self-contained the store effect is modelled by running them in order. -/

/-- Monad state: the stores plus the external-call counter. -/
structure IngestState where
  stores : Stores
  clock : Nat
  deriving DecidableEq, Repr

/-- The collaborator environment for ingestion: which external call
throws, and what the embedding provider returns (the optional data array
of the response, one embedding per input fragment it chose to answer). -/
structure IngestEnv where
  faults : Nat → Bool
  embedData : List Str → Nat → Option (List (List Rat))

/-- Decidable equality of Except values, used to evaluate concrete runs. -/
instance {ε α : Type} [DecidableEq ε] [DecidableEq α] : DecidableEq (Except ε α)
  | .ok a, .ok b =>
    if h : a = b then .isTrue (congrArg Except.ok h)
    else .isFalse (fun hh => h (Except.ok.inj hh))
  | .ok _, .error _ => .isFalse (fun hh => Except.noConfusion hh)
  | .error _, .ok _ => .isFalse (fun hh => Except.noConfusion hh)
  | .error e, .error f =>
    if h : e = f then .isTrue (congrArg Except.error h)
    else .isFalse (fun hh => h (Except.error.inj hh))

/-- State-and-exception monad for the fallible orchestration: writes made
before a throwing call persist. -/
def M (α : Type) : Type := IngestState → Except Unit α × IngestState

/-- Monadic return. -/
def M.pure {α : Type} (a : α) : M α := fun s => (Except.ok a, s)

/-- Monadic bind: an error short-circuits while keeping the state. -/
def M.bind {α β : Type} (x : M α) (f : α → M β) : M β := fun s =>
  match x s with
  | (Except.ok a, s') => f a s'
  | (Except.error e, s') => (Except.error e, s')

instance : Monad M where
  pure := M.pure
  bind := M.bind

/-- The try/catch of the source: the handler receives the state as the
failed body left it. -/
def M.tryCatch {α : Type} (x : M α) (handler : Unit → M α) : M α := fun s =>
  match x s with
  | (Except.ok a, s') => (Except.ok a, s')
  | (Except.error e, s') => handler e s'

/-- An external call: consult the fault schedule at the current clock; on
success apply the collaborator's effect to the stores.  The operation may
read the clock (used for store-generated row ids). -/
def extCall {α : Type} (env : IngestEnv) (op : Nat → Stores → α × Stores) : M α := fun s =>
  if env.faults s.clock then
    (Except.error (), { s with clock := s.clock + 1 })
  else
    let (a, st) := op s.clock s.stores
    (Except.ok a, { stores := st, clock := s.clock + 1 })

/-- prisma.document.findUnique selecting the ingestion flag and subtype. -/
def findUniqueDocument (env : IngestEnv) (documentId : Str) : M (Option DocRow) :=
  extCall env (fun _ st => (alookup documentId st.documents, st))

/-- prisma.ragChunk.deleteMany for one document. -/
def ragChunkDeleteMany (env : IngestEnv) (documentId : Str) : M Unit :=
  extCall env (fun _ st =>
    ((), { st with ragChunks := st.ragChunks.filter (fun r => r.documentId != documentId) }))

/-- prisma.parentChunk.deleteMany for one document; RagChunk rows of the
deleted parents go with them (the schema declares on-delete cascade on
RagChunk.parentChunkId). -/
def parentChunkDeleteMany (env : IngestEnv) (documentId : Str) : M Unit :=
  extCall env (fun _ st =>
    let doomed := st.parentChunks.filter (fun p => p.documentId == documentId)
    ((), { st with
      parentChunks := st.parentChunks.filter (fun p => p.documentId != documentId),
      ragChunks := st.ragChunks.filter
        (fun r => !(doomed.any (fun p => p.id == r.parentChunkId))) }))

/-- Row ids are generated by the store; modelled from the call counter so
each create gets a fresh id. -/
def freshId (n : Nat) : Str := 'p' :: 'c' :: Nat.toDigits 10 n

/-- prisma.parentChunk.create, returning the created row. -/
def parentChunkCreate (env : IngestEnv) (documentId : Str) (parentIndex : Nat)
    (parentText : Str) : M ParentRow :=
  extCall env (fun clock st =>
    let row : ParentRow :=
      { id := freshId clock, documentId := documentId,
        parentIndex := parentIndex, parentText := parentText }
    (row, { st with parentChunks := st.parentChunks ++ [row] }))

/-- The document-mode embedding call; the response's data array is
whatever the provider returns (possibly absent). -/
def voyageEmbedDocuments (env : IngestEnv) (input : List Str) : M (Option (List (List Rat))) :=
  extCall env (fun clock st => (env.embedData input clock, st))

/-- Insert-or-replace one entry by id, the vector index's upsert unit. -/
def upsertOne (e : VecEntry) (l : List VecEntry) : List VecEntry :=
  if l.any (fun v => v.id == e.id) then l.map (fun v => if v.id == e.id then e else v)
  else l ++ [e]

/-- index.upsert over a batch of entries. -/
def pineconeUpsert (env : IngestEnv) (entries : List VecEntry) : M Unit :=
  extCall env (fun _ st =>
    ((), { st with vectors := entries.foldl (fun acc e => upsertOne e acc) st.vectors }))

/-- prisma.ragChunk.createMany. -/
def ragChunkCreateMany (env : IngestEnv) (rows : List RagRow) : M Unit :=
  extCall env (fun _ st => ((), { st with ragChunks := st.ragChunks ++ rows }))

/-- Set the ingestion flag on the row of one document id. -/
def updateDocFlag (documentId : Str) (flag : Bool) (docs : List (Str × DocRow)) :
    List (Str × DocRow) :=
  docs.map (fun kv => if kv.1 = documentId then (kv.1, { kv.2 with isIngested := flag }) else kv)

/-- prisma.document.update setting the ingestion flag; prisma throws when
the record to update is missing. -/
def documentUpdateIngested (env : IngestEnv) (documentId : Str) (flag : Bool) : M Unit :=
  fun s =>
    if env.faults s.clock then
      (Except.error (), { s with clock := s.clock + 1 })
    else
      match alookup documentId s.stores.documents with
      | none => (Except.error (), { s with clock := s.clock + 1 })
      | some _ =>
        (Except.ok (),
         { stores := { s.stores with documents := updateDocFlag documentId flag s.stores.documents },
           clock := s.clock + 1 })

/-- Recursion core of the child segmenter, structural on a fuel that the
wrapper instantiates with the text length (ample, since every step
consumes at least one character). -/
def childSplitAux : Nat → Str → List Str
  | _, [] => []
  | 0, s => [s]
  | fuel + 1, c :: rest => ((c :: rest).take 201) :: childSplitAux fuel (rest.drop 200)

/-- Modelled from the spec: the Child Segmenter (the
RecursiveCharacterTextSplitter collaborator with chunkSize 201 and overlap
0 is library code outside this repository): a fixed-size splitter cutting
the parent text into consecutive fragments of at most 201 characters;
empty input yields zero fragments. -/
def childSplitter (s : Str) : List Str := childSplitAux s.length s

/-- The deterministic vector-index key of a child fragment: document id,
then a parent marker with the parent index, then a child marker with the
child index. -/
def pineconeIdOf (documentId : Str) (parentIndex childIdx : Nat) : Str :=
  documentId ++ "_parent".data ++ Nat.toDigits 10 parentIndex
    ++ "_child".data ++ Nat.toDigits 10 childIdx

/-- The metadata written for one child vector.  scope is none on the
general path (type from the document's subtype, lower-cased, defaulting to
medicine) and some patientId on the patient path (type patient, ownership
flag and patient id set). -/
def mkMetadata (documentId documentTitle parentChunkId childText : Str)
    (parentIndex childIndex : Nat) (scope : Option Str) (ragSubtype : Option Str) : Metadata :=
  { documentId := documentId
    documentTitle := documentTitle
    parentChunkId := some parentChunkId
    childText := childText
    parentIndex := parentIndex
    childIndex := childIndex
    type := match scope with
      | some _ => "patient".data
      | none => ((ragSubtype.map (fun t => t.map Char.toLower)).getD "medicine".data)
    patient := scope.isSome
    patientId := scope }

/-- processSingleParent: persist the parent row, segment it, embed the
fragments, upsert the vectors, persist the linkage rows; every exception
inside is caught and logged, aborting nothing else. -/
def processSingleParent (env : IngestEnv) (documentId documentTitle : Str)
    (scope : Option Str) (ragSubtype : Option Str)
    (parentContent : Str) (parentIndex : Nat) : M Unit :=
  M.tryCatch
    (do
      let parentChunk ← parentChunkCreate env documentId parentIndex parentContent
      let childChunks := childSplitter parentContent
      if childChunks.length = 0 then pure ()
      else do
        let voyageData ← voyageEmbedDocuments env childChunks
        let vectors := voyageData.map (fun data => data.enum.map (fun ic =>
          { id := pineconeIdOf documentId parentIndex ic.1
            values := ic.2
            metadata := mkMetadata documentId documentTitle parentChunk.id
              (childChunks.getD ic.1 []) parentIndex ic.1 scope ragSubtype : VecEntry }))
        match vectors with
        | none => pure ()
        | some vs =>
          if 0 < vs.length then do
            pineconeUpsert env vs
            ragChunkCreateMany env (vs.enum.map (fun iv =>
              { documentId := documentId
                parentChunkId := parentChunk.id
                chunkIndex := parentIndex * 1000 + iv.1
                chunkText := childChunks.getD iv.1 []
                pineconeId := iv.2.id }))
          else pure ())
    (fun _ => pure ())

/-- The parents after the warm-up parent, processed in order starting at
index 1 (concurrent in the source; each parent's writes are
self-contained, so the effect is modelled in order). -/
def runRemainingParents (env : IngestEnv) (documentId documentTitle : Str)
    (scope : Option Str) (ragSubtype : Option Str) : List Str → Nat → M Unit
  | [], _ => pure ()
  | chunk :: rest, idx => do
      processSingleParent env documentId documentTitle scope ragSubtype chunk idx
      runRemainingParents env documentId documentTitle scope ragSubtype rest (idx + 1)

/-- The middle phase of ingestion: delete the document's previous chunk
rows, then attempt every parent (warm-up first), never failing on an
individual parent. -/
def ingestParentsPhase (env : IngestEnv) (documentId documentTitle : Str)
    (scope : Option Str) (ragSubtype : Option Str) (parentChunks : List Str) : M Unit := do
  ragChunkDeleteMany env documentId
  parentChunkDeleteMany env documentId
  processSingleParent env documentId documentTitle scope ragSubtype (parentChunks.getD 0 []) 0
  runRemainingParents env documentId documentTitle scope ragSubtype (parentChunks.drop 1) 1

/-- The try-block body shared by embedAndStoreDocument and
embedAndStorePatientDocument, which differ only in the metadata scope:
check the ingestion flag, split, replace the chunk rows, process each
parent, mark ingested. -/
def ingestBody (env : IngestEnv) (documentId content documentTitle : Str)
    (scope : Option Str) : M Bool := do
  let document ← findUniqueDocument env documentId
  if (document.map (fun d => d.isIngested)).getD false then pure true
  else
    let parentChunks := textSplitterForRag content 4000
    if parentChunks.length = 0 then pure true
    else do
      ingestParentsPhase env documentId documentTitle scope
        (document.bind (fun d => d.ragSubtype)) parentChunks
      documentUpdateIngested env documentId true
      pure true

/-- The shared ingestion routine: any error escaping the body becomes the
return value false. -/
def ingestG (env : IngestEnv) (documentId content documentTitle : Str)
    (scope : Option Str) : M Bool :=
  M.tryCatch (ingestBody env documentId content documentTitle scope) (fun _ => pure false)

/-- Ingestion entry point for general medical documents. -/
def embedAndStoreDocument (env : IngestEnv) (documentId content documentTitle : Str) : M Bool :=
  ingestG env documentId content documentTitle none

/-- Ingestion entry point for patient-scoped documents: identical to the
general path except every vector entry carries the patient ownership flag,
the patient id and the type tag patient. -/
def embedAndStorePatientDocument (env : IngestEnv)
    (documentId content documentTitle patientId : Str) : M Bool :=
  ingestG env documentId content documentTitle (some patientId)

/-- index.deleteMany on a set of vector keys. -/
def pineconeDeleteMany (env : IngestEnv) (ids : List Str) : M Unit :=
  extCall env (fun _ st =>
    ((), { st with vectors := st.vectors.filter (fun v => !(ids.any (fun i => i == v.id))) }))

/-- prisma.ragChunk.findMany selecting the vector keys of one document. -/
def ragChunkFindMany (env : IngestEnv) (documentId : Str) : M (List Str) :=
  extCall env (fun _ st =>
    ((st.ragChunks.filter (fun r => r.documentId == documentId)).map (fun r => r.pineconeId), st))

/-- The try-block body of deleteDocumentVectors: bulk-delete the
document's vectors by their persisted keys, drop its ParentChunk rows
(cascading to RagChunk), reset the ingestion flag. -/
def deleteVectorsBody (env : IngestEnv) (documentId : Str) : M Bool := do
  let chunks ← ragChunkFindMany env documentId
  if 0 < chunks.length then pineconeDeleteMany env chunks else pure ()
  parentChunkDeleteMany env documentId
  documentUpdateIngested env documentId false
  pure true

/-- deleteDocumentVectors: any error escaping the body becomes the return
value false. -/
def deleteDocumentVectors (env : IngestEnv) (documentId : Str) : M Bool :=
  M.tryCatch (deleteVectorsBody env documentId) (fun _ => pure false)

/-! ## Retrieval and fusion engine
(src/app/(dashboard)/dashboard/database/actions.ts, searchVectorDatabase,
with querySimilarDocuments / getParentTexts / rerankDocuments from
src/utils/embeddings.ts)

Retrieval mutates nothing, so it is embedded as a pure function of an
environment carrying the vector-index state and the collaborator
oracles. -/

/-- The metadata filter searchVectorDatabase builds: either a type-in-set
filter or an exact type filter. -/
inductive MetaFilter where
  | typeIn (ts : List Str)
  | typeEq (t : Str)
  deriving DecidableEq, Repr

/-- The typeFilter argument of searchVectorDatabase. -/
inductive TypeFilter where
  | medicine
  | disease
  | all
  deriving DecidableEq, Repr

/-- The filter construction of searchVectorDatabase: all queries both
medicine and disease and never patient; otherwise the one requested
type. -/
def buildFilter : TypeFilter → MetaFilter
  | .all => .typeIn ["medicine".data, "disease".data]
  | .medicine => .typeEq "medicine".data
  | .disease => .typeEq "disease".data

/-- Pinecone metadata-filter semantics for the two filter shapes used. -/
def matchesFilter : MetaFilter → Metadata → Bool
  | .typeIn ts, md => ts.any (fun t => t == md.type)
  | .typeEq t, md => md.type == t

/-- Insertion step of the stable sort modelling Array.prototype.sort: a
later element goes before the first earlier element the comparator orders
strictly after it. -/
def jsOrderedInsert {α : Type} (cmp : α → α → Rat) (a : α) : List α → List α
  | [] => [a]
  | b :: l => if cmp a b < 0 then a :: b :: l else b :: jsOrderedInsert cmp a l

/-- Stable comparator sort (ECMAScript Array.prototype.sort is stable;
insertion sort realizes the specified order for consistent comparators). -/
def jsSort {α : Type} (cmp : α → α → Rat) (l : List α) : List α :=
  l.foldl (fun acc x => jsOrderedInsert cmp x acc) []

/-- One child-level hit as searchVectorDatabase consumes it (after the
null-parent filter of querySimilarDocuments). -/
structure ChildResult where
  documentId : Str
  documentTitle : Str
  childText : Str
  parentChunkId : Str
  score : Rat
  deriving DecidableEq, Repr

/-- The result type of searchVectorDatabase. -/
structure ParentSearchResult where
  parentChunkId : Str
  parentText : Str
  documentId : Str
  documentTitle : Str
  score : Rat
  deriving DecidableEq, Repr

/-- One item of the reranker response; every field optional, as in the
collaborator's wire shape. -/
structure RerankRespItem where
  document : Option Str
  relevanceScore : Option Rat
  index : Option Nat
  deriving DecidableEq, Repr

/-- The reranker response: an optional data array. -/
structure RerankResp where
  data : Option (List RerankRespItem)
  deriving DecidableEq, Repr

/-- A reranked document as rerankDocuments returns it, defaults applied. -/
structure RerankedDoc where
  document : Str
  relevanceScore : Rat
  index : Nat
  deriving DecidableEq, Repr

/-- The retrieval environment: the vector-index state and the external
collaborators (query-mode embedder, the index's similarity scoring, the
relational parent store, the reranker), each able to fail. -/
structure SearchEnv where
  index : List VecEntry
  embedQuery : Str → Except Unit (Option (List Rat))
  similarity : List Rat → List Rat → Rat
  queryFails : Bool
  parentRows : List ParentRow
  parentFetchFails : Bool
  rerank : Str → List Str → Nat → Except Unit RerankResp

/-- The vector index's query: the entries matching the metadata filter,
ranked by similarity to the query vector (best first, ties in entry
order), truncated to topK. -/
def pineconeQuery (env : SearchEnv) (vector : List Rat) (topK : Nat)
    (filter : MetaFilter) : List VecEntry :=
  (jsSort (fun a b => env.similarity vector b.values - env.similarity vector a.values)
    (env.index.filter (fun e => matchesFilter filter e.metadata))).take topK

/-- querySimilarDocuments: embed the query in query mode, query the index,
keep hits carrying a parent reference.  Every failure (embedding throws,
no embedding in the response, index query throws) is caught and becomes
the empty list. -/
def querySimilarDocuments (env : SearchEnv) (query : Str) (topK : Nat)
    (filter : MetaFilter) : List ChildResult :=
  match env.embedQuery query with
  | .error _ => []
  | .ok none => []
  | .ok (some qv) =>
    if env.queryFails then []
    else
      (pineconeQuery env qv topK filter).filterMap (fun m =>
        m.metadata.parentChunkId.map (fun pid =>
          { documentId := m.metadata.documentId
            documentTitle := m.metadata.documentTitle
            childText := m.metadata.childText
            parentChunkId := pid
            score := env.similarity qv m.values }))

/-- Per-parent aggregate kept by the RRF loop. -/
structure PAgg where
  totalScore : Rat
  maxScore : Rat
  documentId : Str
  documentTitle : Str
  deriving DecidableEq, Repr

/-- One step of the RRF aggregation loop over the enumerated child hits:
skip hits with an empty (falsy) parent id, accumulate the reciprocal-rank
contribution and the running maximum similarity per parent, insertion
order preserved as in a JavaScript Map. -/
def aggUpdate (m : List (Str × PAgg)) (index : Nat) (r : ChildResult) : List (Str × PAgg) :=
  if r.parentChunkId.isEmpty then m
  else
    match alookup r.parentChunkId m with
    | some _ =>
      m.map (fun kv =>
        if kv.1 == r.parentChunkId then
          (kv.1, { kv.2 with
            totalScore := kv.2.totalScore + 1 / ((index : Rat) + 60)
            maxScore := max kv.2.maxScore r.score })
        else kv)
    | none =>
      m ++ [(r.parentChunkId,
        { totalScore := 1 / ((index : Rat) + 60), maxScore := r.score,
          documentId := r.documentId, documentTitle := r.documentTitle })]

/-- The RRF aggregation of searchVectorDatabase over the child hits. -/
def aggregateParents (childResults : List ChildResult) : List (Str × PAgg) :=
  childResults.enum.foldl (fun m p => aggUpdate m p.1 p.2) []

/-- The comparator searchVectorDatabase sorts parents with: total RRF
score descending, and when the totals differ by at most a thousandth, max
similarity descending.  The threshold test is exact rational arithmetic
standing in for the program's doubles; a difference of exactly one
thousandth exists only in this embedding (in double arithmetic the
candidate sums round past the 0.001 literal), so theorems constrain the
comparator only away from that razor edge. -/
def parentCmp (a b : Str × PAgg) : Rat :=
  let scoreDiff := b.2.totalScore - a.2.totalScore
  if 1 / 1000 < |scoreDiff| then scoreDiff
  else b.2.maxScore - a.2.maxScore

/-- Sort the aggregated parents and keep the fixed top 10. -/
def sortParents (entries : List (Str × PAgg)) : List (Str × PAgg) :=
  (jsSort parentCmp entries).take 10

/-- JavaScript Map.set: replace the value under an existing key, append
otherwise. -/
def mapSet (m : List (Str × Str)) (k v : Str) : List (Str × Str) :=
  if m.any (fun kv => kv.1 == k) then m.map (fun kv => if kv.1 == k then (k, v) else kv)
  else m ++ [(k, v)]

/-- getParentTexts: batch-fetch the parent rows whose ids are requested
and build the id-to-text map; its internal catch turns a store failure
into the empty map. -/
def getParentTexts (env : SearchEnv) (ids : List Str) : List (Str × Str) :=
  if env.parentFetchFails then []
  else
    (env.parentRows.filter (fun p => ids.any (fun i => i == p.id))).foldl
      (fun m p => mapSet m p.id p.parentText) []

/-- The dedup filter of searchVectorDatabase: drop results with empty
(falsy) parent text and results whose exact parent text was already seen;
first occurrence wins. -/
def dedupByText : List ParentSearchResult → List Str → List ParentSearchResult
  | [], _ => []
  | r :: rest, seen =>
    if r.parentText.isEmpty || seen.any (fun t => t == r.parentText) then
      dedupByText rest seen
    else
      r :: dedupByText rest (r.parentText :: seen)

/-- The pre-rerank portion of searchVectorDatabase: query children,
aggregate by parent with RRF, sort and cut to 10, fetch parent texts,
dedupe by text.  This is the candidate list reranking refines and the
fallback output when reranking yields nothing. -/
def searchCandidates (env : SearchEnv) (query : Str) (topK : Nat)
    (typeFilter : TypeFilter) : List ParentSearchResult :=
  let filter := buildFilter typeFilter
  let childResults := querySimilarDocuments env query topK filter
  if childResults.length = 0 then []
  else
    let sortedParents := sortParents (aggregateParents childResults)
    let parentChunkIds := sortedParents.map (fun kv => kv.1)
    let parentTexts := getParentTexts env parentChunkIds
    let intermediateResults := sortedParents.map (fun kv =>
      { parentChunkId := kv.1
        parentText := (alookup kv.1 parentTexts).getD []
        documentId := kv.2.documentId
        documentTitle := kv.2.documentTitle
        score := kv.2.maxScore : ParentSearchResult })
    dedupByText intermediateResults []

/-- rerankDocuments: empty input short-circuits; a throwing rerank call or
a response without data becomes the empty list; otherwise the response
items with their defaults applied. -/
def rerankDocuments (env : SearchEnv) (query : Str) (documents : List Str)
    (topK : Option Nat) : List RerankedDoc :=
  if documents.length = 0 then []
  else
    match env.rerank query documents (topK.getD documents.length) with
    | .error _ => []
    | .ok resp =>
      match resp.data with
      | none => []
      | some items =>
        if items.length = 0 then []
        else items.map (fun d =>
          { document := d.document.getD []
            relevanceScore := d.relevanceScore.getD 0
            index := d.index.getD 0 })

/-- Resolve each reranked item against the pre-rerank candidate array by
the index it reports; an out-of-range index makes the source read a field
of undefined, which throws (to be caught by the outer handler). -/
def mapRerankBack (uniqueResults : List ParentSearchResult) :
    List RerankedDoc → Except Unit (List ParentSearchResult)
  | [] => .ok []
  | rr :: rest =>
    match uniqueResults.get? rr.index with
    | none => .error ()
    | some original =>
      (mapRerankBack uniqueResults rest).map (fun tail =>
        { parentChunkId := original.parentChunkId
          parentText := original.parentText
          documentId := original.documentId
          documentTitle := original.documentTitle
          score := rr.relevanceScore } :: tail)

/-- The body of searchVectorDatabase inside its try: candidates, then
rerank with fallback, then the mapping back that may throw. -/
def searchBody (env : SearchEnv) (query : Str) (topK : Nat)
    (typeFilter : TypeFilter) : Except Unit (List ParentSearchResult) :=
  let uniqueResults := searchCandidates env query topK typeFilter
  if uniqueResults.length = 0 then .ok []
  else
    let documentsToRerank := uniqueResults.map (fun r => r.parentText)
    let rerankedDocs := rerankDocuments env query documentsToRerank none
    if rerankedDocs.length = 0 then .ok uniqueResults
    else mapRerankBack uniqueResults rerankedDocs

/-- JavaScript String.trim on the whitespace characters it shares with
Char.isWhitespace. -/
def jsTrim (s : Str) : Str :=
  ((s.dropWhile Char.isWhitespace).reverse.dropWhile Char.isWhitespace).reverse

/-- searchVectorDatabase: blank queries yield no results; any error
escaping the body is caught and becomes the empty result list. -/
def searchVectorDatabase (env : SearchEnv) (query : Str) (topK : Nat)
    (typeFilter : TypeFilter) : List ParentSearchResult :=
  if (jsTrim query).isEmpty then []
  else
    match searchBody env query topK typeFilter with
    | .ok results => results
    | .error _ => []

/-- An entry is patient-tagged when its metadata type tag is patient. -/
def isPatientEntry (e : VecEntry) : Bool := e.metadata.type == "patient".data

/-! ## Specification-side formulas for the RRF aggregation

These restate, directly as formulas over the child-hit list, what the
spec says the aggregation computes; they are compared against the
aggregation loop. -/

/-- The RRF aggregation fold with an explicit starting rank, generalizing
aggregateParents for reasoning; aggregateParents is the instance at rank 0
and empty map. -/
def aggFoldFrom (n : Nat) (childResults : List ChildResult)
    (m : List (Str × PAgg)) : List (Str × PAgg) :=
  (childResults.enumFrom n).foldl (fun m p => aggUpdate m p.1 p.2) m

/-- The zero-based ranks (counted from n) at which a parent's child hits
appear in the hit list. -/
def rrfRanksFrom (n : Nat) (pid : Str) (childResults : List ChildResult) : List Nat :=
  ((childResults.enumFrom n).filter (fun p => p.2.parentChunkId == pid)).map (fun p => p.1)

/-- The ranks at which a parent's child hits appear in the hit list. -/
def rrfRanks (pid : Str) (childResults : List ChildResult) : List Nat :=
  rrfRanksFrom 0 pid childResults

/-- The spec's total RRF score of a parent: the sum of the reciprocal-rank
contributions 1 / (i + 60) over the ranks i of its hits. -/
def rrfTotalFrom (n : Nat) (pid : Str) (childResults : List ChildResult) : Rat :=
  ((rrfRanksFrom n pid childResults).map (fun i : Nat => 1 / ((i : Rat) + 60))).sum

/-- The total RRF score counted from rank 0. -/
def rrfTotal (pid : Str) (childResults : List ChildResult) : Rat :=
  rrfTotalFrom 0 pid childResults

/-- The raw similarity scores of a parent's child hits, in hit order. -/
def hitScores (pid : Str) (childResults : List ChildResult) : List Rat :=
  (childResults.filter (fun r => r.parentChunkId == pid)).map (fun r => r.score)

/-! ## Concrete instances used by witnesses -/

/-- An ingestion environment whose collaborators all answer: no call
throws, and the embedder returns one vector per fragment. -/
def envOk : IngestEnv :=
  { faults := fun _ => false
    embedData := fun input _ => some (input.map (fun _ => [1])) }

/-- An ingestion environment whose every external call throws. -/
def envBad : IngestEnv :=
  { faults := fun _ => true
    embedData := fun _ _ => none }

/-- An ingestion environment where exactly the fourth external call (the
warm-up parent's row creation) throws. -/
def envWarmupFault : IngestEnv :=
  { faults := fun t => t == 3
    embedData := fun input _ => some (input.map (fun _ => [1])) }

/-- A store holding one not-yet-ingested document. -/
def stFresh : IngestState :=
  { stores := { documents := [("doc".data, { isIngested := false, ragSubtype := none })]
                parentChunks := [], ragChunks := [], vectors := [] }
    clock := 0 }

/-- A store holding one already-ingested document. -/
def stDone : IngestState :=
  { stores := { documents := [("doc".data, { isIngested := true, ragSubtype := some "MEDICINE".data })]
                parentChunks := [], ragChunks := [], vectors := [] }
    clock := 0 }

/-- A retrieval environment whose reranker reports an out-of-range
candidate index, making the body of searchVectorDatabase throw. -/
def ce8env : SearchEnv :=
  { index := [{ id := "v1".data, values := [1],
                metadata := { documentId := "d".data, documentTitle := "T".data,
                              parentChunkId := some "P1".data, childText := "c".data,
                              parentIndex := 0, childIndex := 0, type := "medicine".data,
                              patient := false, patientId := none } }]
    embedQuery := fun _ => Except.ok (some [1])
    similarity := fun _ vals => vals.headD 0
    queryFails := false
    parentRows := [{ id := "P1".data, documentId := "d".data, parentIndex := 0,
                     parentText := "TX".data }]
    parentFetchFails := false
    rerank := fun _ _ _ =>
      Except.ok { data := some [{ document := none, relevanceScore := some 1, index := some 99 }] } }

/-- A retrieval environment like ce8env but whose reranker throws, so the
pre-rerank candidates come back unchanged. -/
def envOkSearch : SearchEnv :=
  { ce8env with rerank := fun _ _ _ => Except.error () }

/-- A small child-hit list: parent A at ranks 0 and 2, parent B at rank
1, with descending raw scores. -/
def c3rs : List ChildResult :=
  [⟨"d".data, "T".data, "c".data, "A".data, 9/10⟩,
   ⟨"d".data, "T".data, "c".data, "B".data, 8/10⟩,
   ⟨"d".data, "T".data, "c".data, "A".data, 7/10⟩]

/-- A patient-tagged vector entry, as embedAndStorePatientDocument writes
them. -/
def patientEntry : VecEntry :=
  { id := "pv1".data, values := [9],
    metadata := { documentId := "pd".data, documentTitle := "PT".data,
                  parentChunkId := some "PP".data, childText := "pc".data,
                  parentIndex := 0, childIndex := 0, type := "patient".data,
                  patient := true, patientId := some "p1".data } }

/-! ### Basic facts about the lookahead split -/

theorem splitAux_flatten (header : Str) :
    ∀ (rest current : Str), (splitAux header current rest).flatten = current ++ rest := by
  intro rest
  induction rest with
  | nil => intro current; simp [splitAux]
  | cons c rest ih =>
    intro current
    by_cases h : (!current.isEmpty && header.isPrefixOf (c :: rest)) = true
    · simp [splitAux, h, ih]
    · simp [splitAux, h, ih]

theorem splitAux_ne_nil (header : Str) :
    ∀ (rest current : Str), splitAux header current rest ≠ [] := by
  intro rest
  induction rest with
  | nil => intro current; simp [splitAux]
  | cons c rest ih =>
    intro current
    by_cases h : (!current.isEmpty && header.isPrefixOf (c :: rest)) = true
    · simp [splitAux, h]
    · simp [splitAux, h, ih]

theorem splitAux_mem_ne_nil (header : Str) :
    ∀ (rest current : Str), current ≠ [] ∨ rest ≠ [] →
      ∀ p ∈ splitAux header current rest, p ≠ [] := by
  intro rest
  induction rest with
  | nil =>
    intro current hc p hp
    simp only [splitAux, List.mem_singleton] at hp
    subst hp
    rcases hc with h | h
    · exact h
    · exact absurd rfl h
  | cons c rest ih =>
    intro current hc p hp
    by_cases h : (!current.isEmpty && header.isPrefixOf (c :: rest)) = true
    · simp only [splitAux, if_pos h, List.mem_cons] at hp
      rcases hp with rfl | hp
      · simp only [Bool.and_eq_true, Bool.not_eq_eq_eq_not, Bool.not_true] at h
        intro hnil
        rw [hnil] at h
        simp at h
      · exact ih [c] (Or.inl (by simp)) p hp
    · simp only [splitAux, if_neg h] at hp
      exact ih (current ++ [c]) (Or.inl (by simp)) p hp

theorem splitPieces_flatten (header content : Str) :
    (splitPieces header content).flatten = content :=
  splitAux_flatten header content []

theorem splitPieces_mem_ne_nil (header content : Str) (hc : content ≠ []) :
    ∀ p ∈ splitPieces header content, p ≠ [] :=
  splitAux_mem_ne_nil header content [] (Or.inr hc)

theorem splitPieces_ne_nil (header content : Str) : splitPieces header content ≠ [] :=
  splitAux_ne_nil header content []

/-! ### The accumulation loop -/

theorem accumLoop_congr (maxLength : Nat) (f g : Str → Option (List Str))
    (hfg : ∀ p, f p = g p) :
    ∀ (parts : List Str) (accumulated : Str) (result : List Str),
      accumLoop maxLength f parts accumulated result
        = accumLoop maxLength g parts accumulated result := by
  intro parts
  induction parts with
  | nil => intro acc out; rfl
  | cons part rest ih =>
    intro acc out
    simp only [accumLoop, hfg]
    by_cases h1 : maxLength < part.length
    · simp only [if_pos h1]
      cases g part with
      | none => rfl
      | some sub => exact ih _ _
    · simp only [if_neg h1]
      by_cases h2 : acc ≠ [] ∧ maxLength < acc.length + part.length
      · simp only [if_pos h2]; exact ih _ _
      · simp only [if_neg h2]; exact ih _ _

theorem accumLoop_flatten (maxLength : Nat) (recSplit : Str → Option (List Str))
    (hrec : ∀ p sub, recSplit p = some sub → sub.flatten = p) :
    ∀ (parts : List Str) (accumulated : Str) (result : List Str) (res : List Str),
      accumLoop maxLength recSplit parts accumulated result = some res →
      res.flatten = result.flatten ++ accumulated ++ parts.flatten := by
  intro parts
  induction parts with
  | nil =>
    intro acc out res h
    simp only [accumLoop] at h
    cases h
    by_cases hacc : acc = [] <;> simp [hacc]
  | cons part rest ih =>
    intro acc out res h
    simp only [accumLoop] at h
    by_cases h1 : maxLength < part.length
    · rw [if_pos h1] at h
      cases hrs : recSplit part with
      | none => rw [hrs] at h; cases h
      | some sub =>
        rw [hrs] at h
        have hsub := hrec part sub hrs
        have := ih _ _ _ h
        by_cases hacc : acc = []
        · rw [if_pos hacc] at this
          simp [this, hsub, hacc, List.append_assoc]
        · rw [if_neg hacc] at this
          simp [this, hsub, List.append_assoc]
    · rw [if_neg h1] at h
      by_cases h2 : acc ≠ [] ∧ maxLength < acc.length + part.length
      · rw [if_pos h2] at h
        have := ih _ _ _ h
        simp [this, List.append_assoc]
      · rw [if_neg h2] at h
        have := ih _ _ _ h
        simp [this, List.append_assoc]

theorem accumLoop_ne_nil (maxLength : Nat) (recSplit : Str → Option (List Str))
    (hrec : ∀ p sub, recSplit p = some sub → sub ≠ []) :
    ∀ (parts : List Str) (accumulated : Str) (result : List Str) (res : List Str),
      (∀ p ∈ parts, p ≠ []) →
      (result ≠ [] ∨ accumulated ≠ [] ∨ parts ≠ []) →
      accumLoop maxLength recSplit parts accumulated result = some res →
      res ≠ [] := by
  intro parts
  induction parts with
  | nil =>
    intro acc out res _ hne h
    simp only [accumLoop] at h
    cases h
    rcases hne with h | h | h
    · by_cases hacc : acc = [] <;> simp [hacc, h]
    · by_cases hacc : acc = []
      · exact absurd hacc h
      · simp [hacc]
    · exact absurd rfl h
  | cons part rest ih =>
    intro acc out res hparts hne h
    have hpart : part ≠ [] := hparts part (List.mem_cons_self part rest)
    have hrest : ∀ p ∈ rest, p ≠ [] := fun p hp => hparts p (List.mem_cons_of_mem part hp)
    simp only [accumLoop] at h
    by_cases h1 : maxLength < part.length
    · rw [if_pos h1] at h
      cases hrs : recSplit part with
      | none => rw [hrs] at h; cases h
      | some sub =>
        rw [hrs] at h
        refine ih _ _ _ hrest (Or.inl ?_) h
        have hsub : sub ≠ [] := hrec part sub hrs
        by_cases hacc : acc = [] <;> simp [hacc, hsub]
    · rw [if_neg h1] at h
      by_cases h2 : acc ≠ [] ∧ maxLength < acc.length + part.length
      · rw [if_pos h2] at h
        exact ih _ _ _ hrest (Or.inl (by simp)) h
      · rw [if_neg h2] at h
        refine ih _ _ _ hrest (Or.inr (Or.inl ?_)) h
        simp [hpart]

theorem accumLoop_isSome (maxLength : Nat) (recSplit : Str → Option (List Str))
    (hrec : ∀ p, (recSplit p).isSome) :
    ∀ (parts : List Str) (accumulated : Str) (result : List Str),
      (accumLoop maxLength recSplit parts accumulated result).isSome := by
  intro parts
  induction parts with
  | nil => intro acc out; simp [accumLoop]
  | cons part rest ih =>
    intro acc out
    simp only [accumLoop]
    by_cases h1 : maxLength < part.length
    · rw [if_pos h1]
      cases hrs : recSplit part with
      | none => have := hrec part; rw [hrs] at this; cases this
      | some sub => exact ih _ _
    · rw [if_neg h1]
      by_cases h2 : acc ≠ [] ∧ maxLength < acc.length + part.length
      · rw [if_pos h2]; exact ih _ _
      · rw [if_neg h2]; exact ih _ _

/-! ### The header-level splitter -/

theorem splitByHeader_sound (maxLength : Nat) :
    ∀ (fuel : Nat) (content : Str) (headerLevel : Nat) (res : List Str),
      splitByHeader maxLength fuel content headerLevel = some res →
      res.flatten = content ∧ res ≠ [] := by
  intro fuel
  induction fuel with
  | zero => intro c l res h; cases h
  | succ fuel ih =>
    intro content level res h
    simp only [splitByHeader] at h
    by_cases h1 : content.length ≤ maxLength
    · rw [if_pos h1] at h; cases h; simp
    · rw [if_neg h1] at h
      by_cases h2 : headers.length ≤ level
      · rw [if_pos h2] at h; cases h; simp
      · rw [if_neg h2] at h
        have hcne : content ≠ [] := by
          intro hc
          rw [hc] at h1
          exact h1 (Nat.zero_le _)
        by_cases h3 : (splitPieces (headers.getD level []) content).length = 1
        · rw [if_pos h3] at h
          exact ih content (level + 1) res h
        · rw [if_neg h3] at h
          constructor
          · have := accumLoop_flatten maxLength _
              (fun p sub hp => (ih p (level + 1) sub hp).1) _ _ _ _ h
            simpa [splitPieces_flatten] using this
          · exact accumLoop_ne_nil maxLength _
              (fun p sub hp => (ih p (level + 1) sub hp).2) _ _ _ _
              (splitPieces_mem_ne_nil _ _ hcne)
              (Or.inr (Or.inr (splitPieces_ne_nil _ _))) h

theorem splitByHeader_isSome (maxLength : Nat) :
    ∀ (fuel : Nat) (content : Str) (headerLevel : Nat),
      headers.length - headerLevel < fuel →
      (splitByHeader maxLength fuel content headerLevel).isSome := by
  intro fuel
  induction fuel with
  | zero => intro c l h; omega
  | succ fuel ih =>
    intro content level hfuel
    simp only [splitByHeader]
    by_cases h1 : content.length ≤ maxLength
    · rw [if_pos h1]; rfl
    · rw [if_neg h1]
      by_cases h2 : headers.length ≤ level
      · rw [if_pos h2]; rfl
      · rw [if_neg h2]
        have hlt : level < headers.length := Nat.lt_of_not_le h2
        have hfuel' : headers.length - (level + 1) < fuel := by omega
        by_cases h3 : (splitPieces (headers.getD level []) content).length = 1
        · rw [if_pos h3]
          exact ih content (level + 1) hfuel'
        · rw [if_neg h3]
          exact accumLoop_isSome maxLength _ (fun p => ih p (level + 1) hfuel') _ _ _

theorem splitByHeader_fuel_step (maxLength : Nat) :
    ∀ (fuel : Nat) (content : Str) (headerLevel : Nat),
      headers.length - headerLevel < fuel →
      splitByHeader maxLength (fuel + 1) content headerLevel
        = splitByHeader maxLength fuel content headerLevel := by
  intro fuel
  induction fuel with
  | zero => intro c l h; omega
  | succ fuel ih =>
    intro content level hfuel
    conv_lhs => rw [splitByHeader]
    conv_rhs => rw [splitByHeader]
    by_cases h1 : content.length ≤ maxLength
    · simp only [if_pos h1]
    · simp only [if_neg h1]
      by_cases h2 : headers.length ≤ level
      · simp only [if_pos h2]
      · simp only [if_neg h2]
        have hlt : level < headers.length := Nat.lt_of_not_le h2
        have hfuel' : headers.length - (level + 1) < fuel := by omega
        by_cases h3 : (splitPieces (headers.getD level []) content).length = 1
        · simp only [if_pos h3]
          exact ih content (level + 1) hfuel'
        · simp only [if_neg h3]
          exact accumLoop_congr maxLength _ _ (fun p => ih p (level + 1) hfuel') _ _ _

theorem splitByHeader_fuel_ge (maxLength : Nat) :
    ∀ (fuel₂ fuel₁ : Nat) (content : Str) (headerLevel : Nat),
      headers.length - headerLevel < fuel₁ → fuel₁ ≤ fuel₂ →
      splitByHeader maxLength fuel₂ content headerLevel
        = splitByHeader maxLength fuel₁ content headerLevel := by
  intro fuel₂
  induction fuel₂ with
  | zero =>
    intro fuel₁ c l hb hle
    omega
  | succ fuel₂ ih =>
    intro fuel₁ content level hb hle
    rcases Nat.eq_or_lt_of_le hle with h | h
    · rw [h]
    · have hle' : fuel₁ ≤ fuel₂ := by omega
      have hb2 : headers.length - level < fuel₂ := by omega
      rw [splitByHeader_fuel_step maxLength fuel₂ content level hb2]
      exact ih fuel₁ content level hb hle'

theorem textSplitterForRag_eq_some (text : Str) (maxLength : Nat) :
    splitByHeader maxLength (headers.length + 1) text 0
      = some (textSplitterForRag text maxLength) := by
  have h := splitByHeader_isSome maxLength (headers.length + 1) text 0 (by omega)
  rcases Option.isSome_iff_exists.mp h with ⟨res, hres⟩
  rw [textSplitterForRag, hres]
  rfl

theorem textSplitterForRag_flatten_eq (text : Str) (maxLength : Nat) :
    (textSplitterForRag text maxLength).flatten = text :=
  (splitByHeader_sound maxLength _ _ _ _ (textSplitterForRag_eq_some text maxLength)).1

theorem textSplitterForRag_ne_nil (text : Str) (maxLength : Nat) :
    textSplitterForRag text maxLength ≠ [] :=
  (splitByHeader_sound maxLength _ _ _ _ (textSplitterForRag_eq_some text maxLength)).2

/-- C2: for every input text and every maxLength ≥ 1, concatenating in
order the segments returned by textSplitterForRag(text, maxLength) yields
exactly the original text: no character is lost, duplicated, or reordered
(the splitter splits with a lookahead at heading markers and
re-accumulates pieces in order). -/
theorem claim_C2_splitter_coverage (text : Str) (maxLength : Nat) (_hmax : 1 ≤ maxLength) :
    (textSplitterForRag text maxLength).flatten = text :=
  textSplitterForRag_flatten_eq text maxLength

theorem claim_C2_splitter_coverage_witness :
    1 ≤ 8 ∧ (textSplitterForRag "ab\n# cd\n## ef".data 8).flatten = "ab\n# cd\n## ef".data :=
  ⟨by decide, claim_C2_splitter_coverage "ab\n# cd\n## ef".data 8 (by decide)⟩

/-- C9: for every input text and every maxLength, textSplitterForRag
terminates, and the recursion depth of its inner splitByHeader is bounded
by the number of heading levels (4 = headers.length): the heading-level
parameter strictly increases on every recursive call and recursion stops
once the level reaches 4, so any fuel exceeding
headers.length - headerLevel yields the same defined value, and fuel
headers.length + 1 from level 0 computes textSplitterForRag's result. -/
theorem claim_C9_splitter_termination (maxLength : Nat) (content : Str)
    (headerLevel fuel : Nat) (h : headers.length - headerLevel < fuel) :
    (splitByHeader maxLength fuel content headerLevel).isSome ∧
    splitByHeader maxLength fuel content headerLevel
      = splitByHeader maxLength (headers.length - headerLevel + 1) content headerLevel ∧
    splitByHeader maxLength (headers.length + 1) content 0
      = some (textSplitterForRag content maxLength) :=
  ⟨splitByHeader_isSome maxLength fuel content headerLevel h,
   splitByHeader_fuel_ge maxLength fuel (headers.length - headerLevel + 1) content
     headerLevel (by omega) (by omega),
   textSplitterForRag_eq_some content maxLength⟩

theorem claim_C9_splitter_termination_witness :
    (splitByHeader 3 9 "x\n# y\n# z".data 0).isSome ∧
    splitByHeader 3 9 "x\n# y\n# z".data 0
      = splitByHeader 3 (headers.length - 0 + 1) "x\n# y\n# z".data 0 ∧
    splitByHeader 3 (headers.length + 1) "x\n# y\n# z".data 0
      = some (textSplitterForRag "x\n# y\n# z".data 3) :=
  claim_C9_splitter_termination 3 "x\n# y\n# z".data 0 9 (by decide)

/-! ### The ingestion monad: evaluation and preservation lemmas -/

theorem M_bind_ok {α β : Type} (x : M α) (f : α → M β) (s : IngestState)
    (a : α) (s₁ : IngestState) (h : x s = (Except.ok a, s₁)) :
    (x >>= f) s = f a s₁ := by
  show M.bind x f s = f a s₁
  unfold M.bind
  rw [h]

theorem M_bind_error {α β : Type} (x : M α) (f : α → M β) (s : IngestState)
    (e : Unit) (s₁ : IngestState) (h : x s = (Except.error e, s₁)) :
    (x >>= f) s = (Except.error e, s₁) := by
  show M.bind x f s = (Except.error e, s₁)
  unfold M.bind
  rw [h]

theorem M_pure_apply {α : Type} (a : α) (s : IngestState) :
    (pure a : M α) s = (Except.ok a, s) := rfl

theorem extCall_ok {α : Type} (env : IngestEnv) (op : Nat → Stores → α × Stores)
    (s : IngestState) (hf : env.faults s.clock = false) :
    extCall env op s
      = (Except.ok (op s.clock s.stores).1,
         { stores := (op s.clock s.stores).2, clock := s.clock + 1 }) := by
  simp [extCall, hf]

theorem extCall_error {α : Type} (env : IngestEnv) (op : Nat → Stores → α × Stores)
    (s : IngestState) (hf : env.faults s.clock = true) :
    extCall env op s = (Except.error (), { s with clock := s.clock + 1 }) := by
  simp [extCall, hf]

theorem tryCatch_pure_handler_ok {α : Type} (x : M α) (a₀ : α) (s : IngestState) :
    ∃ r s', M.tryCatch x (fun _ => pure a₀) s = (Except.ok r, s') := by
  unfold M.tryCatch
  match hx : x s with
  | (Except.ok a, s') => exact ⟨a, s', rfl⟩
  | (Except.error e, s') => exact ⟨a₀, s', rfl⟩

theorem tryCatch_pure_handler_of_error {α : Type} (x : M α) (a₀ : α) (s : IngestState)
    (e : Unit) (s' : IngestState) (h : x s = (Except.error e, s')) :
    M.tryCatch x (fun _ => pure a₀) s = (Except.ok a₀, s') := by
  unfold M.tryCatch
  rw [h]
  rfl

theorem tryCatch_pure_handler_of_ok {α : Type} (x : M α) (a₀ : α) (s : IngestState)
    (a : α) (s' : IngestState) (h : x s = (Except.ok a, s')) :
    M.tryCatch x (fun _ => pure a₀) s = (Except.ok a, s') := by
  unfold M.tryCatch
  rw [h]

theorem processSingleParent_ok (env : IngestEnv) (documentId documentTitle : Str)
    (scope ragSubtype : Option Str) (parentContent : Str) (parentIndex : Nat)
    (s : IngestState) :
    ∃ s', processSingleParent env documentId documentTitle scope ragSubtype
        parentContent parentIndex s = (Except.ok (), s') := by
  unfold processSingleParent
  obtain ⟨r, s', h⟩ := tryCatch_pure_handler_ok _ () s
  cases r
  exact ⟨s', h⟩

theorem runRemainingParents_ok (env : IngestEnv) (documentId documentTitle : Str)
    (scope ragSubtype : Option Str) :
    ∀ (chunks : List Str) (idx : Nat) (s : IngestState),
      ∃ s', runRemainingParents env documentId documentTitle scope ragSubtype chunks idx s
        = (Except.ok (), s') := by
  intro chunks
  induction chunks with
  | nil => intro idx s; exact ⟨s, rfl⟩
  | cons chunk rest ih =>
    intro idx s
    obtain ⟨s₁, h₁⟩ := processSingleParent_ok env documentId documentTitle scope ragSubtype chunk idx s
    obtain ⟨s₂, h₂⟩ := ih (idx + 1) s₁
    refine ⟨s₂, ?_⟩
    show (processSingleParent env documentId documentTitle scope ragSubtype chunk idx >>=
      fun _ => runRemainingParents env documentId documentTitle scope ragSubtype rest (idx + 1)) s
        = (Except.ok (), s₂)
    rw [M_bind_ok _ _ _ _ _ h₁, h₂]

theorem ingestParentsPhase_ok (env : IngestEnv) (documentId documentTitle : Str)
    (scope ragSubtype : Option Str) (parentChunks : List Str) (s : IngestState)
    (h1 : env.faults s.clock = false) (h2 : env.faults (s.clock + 1) = false) :
    ∃ s', ingestParentsPhase env documentId documentTitle scope ragSubtype parentChunks s
      = (Except.ok (), s') := by
  have hd1 : ragChunkDeleteMany env documentId s
      = (Except.ok (), { stores := _, clock := s.clock + 1 }) := extCall_ok env _ s h1
  set s₁ : IngestState :=
    { stores := { s.stores with
        ragChunks := s.stores.ragChunks.filter (fun r => r.documentId != documentId) },
      clock := s.clock + 1 } with hs₁
  have hd2 : parentChunkDeleteMany env documentId s₁
      = (Except.ok (), { stores := _, clock := s₁.clock + 1 }) :=
    extCall_ok env _ s₁ (by simpa using h2)
  obtain ⟨s₃, h₃⟩ := processSingleParent_ok env documentId documentTitle scope ragSubtype
    (parentChunks.getD 0 []) 0 _
  obtain ⟨s₄, h₄⟩ := runRemainingParents_ok env documentId documentTitle scope ragSubtype
    (parentChunks.drop 1) 1 s₃
  refine ⟨s₄, ?_⟩
  show (ragChunkDeleteMany env documentId >>= fun _ =>
    parentChunkDeleteMany env documentId >>= fun _ =>
    processSingleParent env documentId documentTitle scope ragSubtype (parentChunks.getD 0 []) 0 >>=
    fun _ => runRemainingParents env documentId documentTitle scope ragSubtype
      (parentChunks.drop 1) 1) s = (Except.ok (), s₄)
  rw [M_bind_ok _ _ _ _ _ hd1]
  rw [M_bind_ok _ _ _ _ _ hd2]
  rw [M_bind_ok _ _ _ _ _ h₃, h₄]

/-! ### The parent-processing phase never touches the documents table -/

theorem extCall_docs {α : Type} (env : IngestEnv) (op : Nat → Stores → α × Stores)
    (hop : ∀ c st, ((op c st).2).documents = st.documents) :
    ∀ s, ((extCall env op s).2).stores.documents = s.stores.documents := by
  intro s
  by_cases hf : env.faults s.clock = true
  · rw [extCall_error env op s hf]
  · rw [extCall_ok env op s (by simpa using hf)]
    exact hop s.clock s.stores

theorem bind_docs {α β : Type} (x : M α) (f : α → M β)
    (hx : ∀ s, ((x s).2).stores.documents = s.stores.documents)
    (hf : ∀ a s, ((f a s).2).stores.documents = s.stores.documents) :
    ∀ s, (((x >>= f) s).2).stores.documents = s.stores.documents := by
  intro s
  have h1 := hx s
  show ((M.bind x f s).2).stores.documents = s.stores.documents
  unfold M.bind
  rcases h2 : x s with ⟨r, s'⟩
  rw [h2] at h1
  cases r with
  | ok a => exact (hf a s').trans h1
  | error e => exact h1

theorem tryCatch_docs {α : Type} (x : M α) (handler : Unit → M α)
    (hx : ∀ s, ((x s).2).stores.documents = s.stores.documents)
    (hh : ∀ e s, ((handler e s).2).stores.documents = s.stores.documents) :
    ∀ s, ((M.tryCatch x handler s).2).stores.documents = s.stores.documents := by
  intro s
  have h1 := hx s
  unfold M.tryCatch
  rcases h2 : x s with ⟨r, s'⟩
  rw [h2] at h1
  cases r with
  | ok a => exact h1
  | error e => exact (hh e s').trans h1

theorem pure_docs {α : Type} (a : α) :
    ∀ s, (((pure a : M α) s).2).stores.documents = s.stores.documents := fun _ => rfl

theorem processSingleParent_docs (env : IngestEnv) (documentId documentTitle : Str)
    (scope ragSubtype : Option Str) (parentContent : Str) (parentIndex : Nat) :
    ∀ s, ((processSingleParent env documentId documentTitle scope ragSubtype
        parentContent parentIndex s).2).stores.documents = s.stores.documents := by
  unfold processSingleParent
  apply tryCatch_docs
  · apply bind_docs
    · exact extCall_docs env _ (fun c st => rfl)
    · intro parentChunk
      by_cases hc : (childSplitter parentContent).length = 0
      · simp only [if_pos hc]
        exact pure_docs ()
      · simp only [if_neg hc]
        apply bind_docs
        · exact extCall_docs env _ (fun c st => rfl)
        · intro voyageData
          cases voyageData with
          | none => exact pure_docs ()
          | some data =>
            simp only [Option.map]
            by_cases hv : 0 < (data.enum.map (fun ic =>
                ({ id := pineconeIdOf documentId parentIndex ic.1
                   values := ic.2
                   metadata := mkMetadata documentId documentTitle parentChunk.id
                     ((childSplitter parentContent).getD ic.1 []) parentIndex ic.1
                     scope ragSubtype } : VecEntry))).length
            · simp only [if_pos hv]
              apply bind_docs
              · exact extCall_docs env _ (fun c st => rfl)
              · intro u
                exact extCall_docs env _ (fun c st => rfl)
            · simp only [if_neg hv]
              exact pure_docs ()
  · intro e
    exact pure_docs ()

theorem runRemainingParents_docs (env : IngestEnv) (documentId documentTitle : Str)
    (scope ragSubtype : Option Str) :
    ∀ (chunks : List Str) (idx : Nat) (s : IngestState),
      ((runRemainingParents env documentId documentTitle scope ragSubtype chunks idx s).2).stores.documents
        = s.stores.documents := by
  intro chunks
  induction chunks with
  | nil => intro idx s; rfl
  | cons chunk rest ih =>
    intro idx
    exact bind_docs _ _
      (processSingleParent_docs env documentId documentTitle scope ragSubtype chunk idx)
      (fun _ => ih (idx + 1))

theorem ingestParentsPhase_docs (env : IngestEnv) (documentId documentTitle : Str)
    (scope ragSubtype : Option Str) (parentChunks : List Str) :
    ∀ s, ((ingestParentsPhase env documentId documentTitle scope ragSubtype parentChunks s).2).stores.documents
      = s.stores.documents := by
  unfold ingestParentsPhase
  apply bind_docs
  · exact extCall_docs env _ (fun c st => rfl)
  · intro u1
    apply bind_docs
    · exact extCall_docs env _ (fun c st => rfl)
    · intro u2
      apply bind_docs
      · exact processSingleParent_docs env documentId documentTitle scope ragSubtype _ 0
      · intro u3
        exact runRemainingParents_docs env documentId documentTitle scope ragSubtype _ 1

/-! ### Lookup after an update, and the update call -/

theorem alookup_updateDocFlag (documentId : Str) (flag : Bool) :
    ∀ (docs : List (Str × DocRow)),
      alookup documentId (updateDocFlag documentId flag docs)
        = (alookup documentId docs).map (fun d => { d with isIngested := flag }) := by
  intro docs
  induction docs with
  | nil => rfl
  | cons kv rest ih =>
    rcases kv with ⟨k', v⟩
    have hstep : updateDocFlag documentId flag ((k', v) :: rest)
        = (if k' = documentId then (k', { v with isIngested := flag }) else (k', v))
            :: updateDocFlag documentId flag rest := by
      simp [updateDocFlag]
    rw [hstep]
    by_cases h : k' = documentId
    · rw [if_pos h]
      subst h
      simp [alookup]
    · rw [if_neg h]
      simp [alookup, h, ih]

theorem documentUpdateIngested_ok (env : IngestEnv) (documentId : Str) (flag : Bool)
    (s : IngestState) (doc : DocRow)
    (hf : env.faults s.clock = false)
    (hdoc : alookup documentId s.stores.documents = some doc) :
    documentUpdateIngested env documentId flag s
      = (Except.ok (),
         { stores := { s.stores with
             documents := updateDocFlag documentId flag s.stores.documents },
           clock := s.clock + 1 }) := by
  simp [documentUpdateIngested, hf, hdoc]

/-! ### The idempotence short-circuit (C4) -/

theorem ingestG_skip (env : IngestEnv) (documentId content documentTitle : Str)
    (scope : Option Str) (s : IngestState) (doc : DocRow)
    (hdoc : alookup documentId s.stores.documents = some doc)
    (hing : doc.isIngested = true)
    (hf : env.faults s.clock = false) :
    ingestG env documentId content documentTitle scope s
      = (Except.ok true, { s with clock := s.clock + 1 }) := by
  have hfind : findUniqueDocument env documentId s
      = (Except.ok (some doc), { s with clock := s.clock + 1 }) := by
    rw [findUniqueDocument, extCall_ok env _ s hf, hdoc]
  have hbody : ingestBody env documentId content documentTitle scope s
      = (Except.ok true, { s with clock := s.clock + 1 }) := by
    unfold ingestBody
    rw [M_bind_ok _ _ _ _ _ hfind]
    simp [hing]
    rfl
  unfold ingestG
  exact tryCatch_pure_handler_of_ok _ _ _ _ _ hbody

/-! ### Running the body on a fresh document -/

theorem ingestBody_run (env : IngestEnv) (documentId content documentTitle : Str)
    (scope : Option Str) (s : IngestState) (doc : DocRow)
    (hdoc : alookup documentId s.stores.documents = some doc)
    (hning : doc.isIngested = false)
    (hf0 : env.faults s.clock = false) :
    ingestBody env documentId content documentTitle scope s
      = (ingestParentsPhase env documentId documentTitle scope doc.ragSubtype
           (textSplitterForRag content 4000) >>= fun _ =>
         documentUpdateIngested env documentId true >>= fun _ =>
         pure true) { s with clock := s.clock + 1 } := by
  have hfind : findUniqueDocument env documentId s
      = (Except.ok (some doc), { s with clock := s.clock + 1 }) := by
    rw [findUniqueDocument, extCall_ok env _ s hf0, hdoc]
  unfold ingestBody
  rw [M_bind_ok _ _ _ _ _ hfind]
  have hlen : ¬ (textSplitterForRag content 4000).length = 0 := by
    simpa [List.length_eq_zero] using textSplitterForRag_ne_nil content 4000
  simp only [Option.map, Option.getD, hning, Bool.false_eq_true, if_false, hlen, Option.bind]

/-- C7: whenever ingestion reaches the per-parent processing stage (the
splitter returned at least one segment — which it always does — and the
cleanup deletes succeeded), embedAndStoreDocument sets the document's
isIngested flag to true and returns true even if processing of every
individual parent threw: each per-parent exception is caught and logged
inside processSingleParent and aborts neither sibling parents nor the
final flag update (which is assumed to be reachable, that is, its own
store call does not itself throw). -/
theorem claim_C7_flag_set_despite_parent_failures (env : IngestEnv)
    (documentId content documentTitle : Str) (s : IngestState) (doc : DocRow)
    (hdoc : alookup documentId s.stores.documents = some doc)
    (hning : doc.isIngested = false)
    (hf0 : env.faults s.clock = false)
    (hf1 : env.faults (s.clock + 1) = false)
    (hf2 : env.faults (s.clock + 2) = false)
    (hfu : env.faults ((ingestParentsPhase env documentId documentTitle none doc.ragSubtype
        (textSplitterForRag content 4000) { s with clock := s.clock + 1 }).2).clock = false) :
    ∃ s', embedAndStoreDocument env documentId content documentTitle s = (Except.ok true, s') ∧
      alookup documentId s'.stores.documents = some { doc with isIngested := true } := by
  obtain ⟨sp, hphase⟩ := ingestParentsPhase_ok env documentId documentTitle none doc.ragSubtype
    (textSplitterForRag content 4000) { s with clock := s.clock + 1 }
    (by simpa using hf1) (by simpa using hf2)
  rw [hphase] at hfu
  have hdocs_sp : sp.stores.documents = s.stores.documents := by
    have h := ingestParentsPhase_docs env documentId documentTitle none doc.ragSubtype
      (textSplitterForRag content 4000) { s with clock := s.clock + 1 }
    rw [hphase] at h
    exact h
  have hdoc_sp : alookup documentId sp.stores.documents = some doc := by
    rw [hdocs_sp]; exact hdoc
  have hupd := documentUpdateIngested_ok env documentId true sp doc hfu hdoc_sp
  refine ⟨⟨⟨updateDocFlag documentId true sp.stores.documents, sp.stores.parentChunks,
    sp.stores.ragChunks, sp.stores.vectors⟩, sp.clock + 1⟩, ?_, ?_⟩
  · show ingestG env documentId content documentTitle none s = _
    unfold ingestG
    apply tryCatch_pure_handler_of_ok
    rw [ingestBody_run env documentId content documentTitle none s doc hdoc hning hf0]
    rw [M_bind_ok _ _ _ _ _ hphase]
    rw [M_bind_ok _ _ _ _ _ hupd]
    exact M_pure_apply _ _
  · show alookup documentId (updateDocFlag documentId true sp.stores.documents) = _
    rw [alookup_updateDocFlag, hdoc_sp]
    rfl

theorem claim_C7_flag_set_despite_parent_failures_witness :
    ∃ s', embedAndStoreDocument envWarmupFault "doc".data "hi".data "T".data stFresh
        = (Except.ok true, s') ∧
      alookup "doc".data s'.stores.documents
        = some { isIngested := true, ragSubtype := none } :=
  claim_C7_flag_set_despite_parent_failures envWarmupFault "doc".data "hi".data "T".data
    stFresh { isIngested := false, ragSubtype := none }
    (by decide) (by decide) (by decide) (by decide) (by decide) (by decide)

/-- C4: if the document's isIngested flag is true when embedAndStoreDocument
(or embedAndStorePatientDocument) is called, the call returns true and
performs zero additional writes: no vector-index upsert or delete, and no
create, delete, or update of ParentChunk, RagChunk, or Document rows — the
stores are left exactly as they were (only the external-call counter of the
embedding advances, for the one read of the flag). -/
theorem claim_C4_reingestion_idempotent (env : IngestEnv)
    (documentId content documentTitle patientId : Str) (s : IngestState) (doc : DocRow)
    (hdoc : alookup documentId s.stores.documents = some doc)
    (hing : doc.isIngested = true)
    (hf : env.faults s.clock = false) :
    embedAndStoreDocument env documentId content documentTitle s
      = (Except.ok true, { s with clock := s.clock + 1 }) ∧
    embedAndStorePatientDocument env documentId content documentTitle patientId s
      = (Except.ok true, { s with clock := s.clock + 1 }) :=
  ⟨ingestG_skip env documentId content documentTitle none s doc hdoc hing hf,
   ingestG_skip env documentId content documentTitle (some patientId) s doc hdoc hing hf⟩

theorem claim_C4_reingestion_idempotent_witness :
    embedAndStoreDocument envOk "doc".data "c".data "T".data stDone
      = (Except.ok true, { stDone with clock := 1 }) ∧
    embedAndStorePatientDocument envOk "doc".data "c".data "T".data "p".data stDone
      = (Except.ok true, { stDone with clock := 1 }) :=
  claim_C4_reingestion_idempotent envOk "doc".data "c".data "T".data "p".data stDone
    { isIngested := true, ragSubtype := some "MEDICINE".data } (by decide) (by decide) (by decide)

/-- C8: for every input and every behavior of the external collaborators
(any of which may throw at any suspension point), no exception propagates
out of embedAndStoreDocument, embedAndStorePatientDocument,
deleteDocumentVectors, or searchVectorDatabase: the three ingestion-side
routines always return an ok boolean, an error escaping their bodies
yields the return value false, and an error escaping
searchVectorDatabase's body yields the empty result array. -/
theorem claim_C8_no_exception_escapes :
    (∀ (env : IngestEnv) (documentId content documentTitle : Str) (s : IngestState),
      ∃ b s', embedAndStoreDocument env documentId content documentTitle s
        = (Except.ok b, s')) ∧
    (∀ (env : IngestEnv) (documentId content documentTitle patientId : Str) (s : IngestState),
      ∃ b s', embedAndStorePatientDocument env documentId content documentTitle patientId s
        = (Except.ok b, s')) ∧
    (∀ (env : IngestEnv) (documentId : Str) (s : IngestState),
      ∃ b s', deleteDocumentVectors env documentId s = (Except.ok b, s')) ∧
    (∀ (env : IngestEnv) (documentId content documentTitle : Str) (scope : Option Str)
       (s : IngestState) (e : Unit) (s' : IngestState),
      ingestBody env documentId content documentTitle scope s = (Except.error e, s') →
      ingestG env documentId content documentTitle scope s = (Except.ok false, s')) ∧
    (∀ (env : IngestEnv) (documentId : Str) (s : IngestState) (e : Unit) (s' : IngestState),
      deleteVectorsBody env documentId s = (Except.error e, s') →
      deleteDocumentVectors env documentId s = (Except.ok false, s')) ∧
    (∀ (env : SearchEnv) (query : Str) (topK : Nat) (typeFilter : TypeFilter) (e : Unit),
      searchBody env query topK typeFilter = Except.error e →
      searchVectorDatabase env query topK typeFilter = []) ∧
    (∀ (env : SearchEnv) (query : Str) (topK : Nat) (typeFilter : TypeFilter)
       (results : List ParentSearchResult),
      searchBody env query topK typeFilter = Except.ok results →
      searchVectorDatabase env query topK typeFilter = []
        ∨ searchVectorDatabase env query topK typeFilter = results) := by
  refine ⟨?_, ?_, ?_, ?_, ?_, ?_, ?_⟩
  · intro env documentId content documentTitle s
    obtain ⟨r, s', h⟩ := tryCatch_pure_handler_ok
      (ingestBody env documentId content documentTitle none) false s
    exact ⟨r, s', h⟩
  · intro env documentId content documentTitle patientId s
    obtain ⟨r, s', h⟩ := tryCatch_pure_handler_ok
      (ingestBody env documentId content documentTitle (some patientId)) false s
    exact ⟨r, s', h⟩
  · intro env documentId s
    obtain ⟨r, s', h⟩ := tryCatch_pure_handler_ok (deleteVectorsBody env documentId) false s
    exact ⟨r, s', h⟩
  · intro env documentId content documentTitle scope s e s' h
    exact tryCatch_pure_handler_of_error _ _ _ _ _ h
  · intro env documentId s e s' h
    exact tryCatch_pure_handler_of_error _ _ _ _ _ h
  · intro env query topK typeFilter e h
    unfold searchVectorDatabase
    by_cases hq : (jsTrim query).isEmpty = true
    · rw [if_pos hq]
    · rw [if_neg hq, h]
  · intro env query topK typeFilter results h
    unfold searchVectorDatabase
    by_cases hq : (jsTrim query).isEmpty = true
    · rw [if_pos hq]; exact Or.inl rfl
    · rw [if_neg hq, h]; exact Or.inr rfl

theorem claim_C8_no_exception_escapes_witness :
    (∃ b s', embedAndStoreDocument envBad "doc".data [] "T".data stFresh = (Except.ok b, s')) ∧
    (∃ b s', embedAndStorePatientDocument envBad "doc".data [] "T".data "p".data stFresh
      = (Except.ok b, s')) ∧
    (∃ b s', deleteDocumentVectors envBad "doc".data stFresh = (Except.ok b, s')) ∧
    ingestG envBad "doc".data [] "T".data none stFresh
      = (Except.ok false, { stFresh with clock := 1 }) ∧
    deleteDocumentVectors envBad "doc".data stFresh
      = (Except.ok false, { stFresh with clock := 1 }) ∧
    searchVectorDatabase ce8env "q".data 5 TypeFilter.all = [] ∧
    (searchVectorDatabase envOkSearch "q".data 5 TypeFilter.all = []
      ∨ searchVectorDatabase envOkSearch "q".data 5 TypeFilter.all
          = searchCandidates envOkSearch "q".data 5 TypeFilter.all) :=
  ⟨claim_C8_no_exception_escapes.1 envBad "doc".data [] "T".data stFresh,
   claim_C8_no_exception_escapes.2.1 envBad "doc".data [] "T".data "p".data stFresh,
   claim_C8_no_exception_escapes.2.2.1 envBad "doc".data stFresh,
   claim_C8_no_exception_escapes.2.2.2.1 envBad "doc".data [] "T".data none stFresh ()
     { stFresh with clock := 1 } (by decide),
   claim_C8_no_exception_escapes.2.2.2.2.1 envBad "doc".data stFresh ()
     { stFresh with clock := 1 } (by decide),
   claim_C8_no_exception_escapes.2.2.2.2.2.1 ce8env "q".data 5 TypeFilter.all ()
     (by with_unfolding_all decide),
   claim_C8_no_exception_escapes.2.2.2.2.2.2 envOkSearch "q".data 5 TypeFilter.all
     (searchCandidates envOkSearch "q".data 5 TypeFilter.all)
     (by with_unfolding_all decide)⟩

/-! ### Ingesting a document with empty text (C10) -/

theorem textSplitterForRag_nil (maxLength : Nat) :
    textSplitterForRag [] maxLength = [[]] := by
  simp [textSplitterForRag, splitByHeader, Nat.zero_le]

theorem filter_doc_ne_then_eq (d : Str) :
    ∀ (l : List ParentRow),
      ((l.filter (fun p => p.documentId != d)).filter (fun p => p.documentId == d)) = [] := by
  intro l
  induction l with
  | nil => rfl
  | cons p rest ih =>
    by_cases h : p.documentId = d
    · have hne : (p.documentId != d) = false := by simp [h]
      simp [List.filter, hne, ih]
    · have hne : (p.documentId != d) = true := by simpa using h
      have heq : (p.documentId == d) = false := by simpa using h
      simp [List.filter, hne, heq, ih]

theorem ingestParentsPhase_empty_parent (env : IngestEnv)
    (documentId documentTitle : Str) (scope ragSubtype : Option Str) (s : IngestState)
    (hf : ∀ t, env.faults t = false) :
    ingestParentsPhase env documentId documentTitle scope ragSubtype [[]] s
      = (Except.ok (),
         ⟨⟨s.stores.documents,
           s.stores.parentChunks.filter (fun p => p.documentId != documentId)
             ++ [⟨freshId (s.clock + 2), documentId, 0, []⟩],
           (s.stores.ragChunks.filter (fun r => r.documentId != documentId)).filter
             (fun r => !((s.stores.parentChunks.filter
               (fun p => p.documentId == documentId)).any (fun p => p.id == r.parentChunkId))),
           s.stores.vectors⟩, s.clock + 3⟩) := by
  have hd1 : ragChunkDeleteMany env documentId s
      = (Except.ok (),
         ⟨⟨s.stores.documents, s.stores.parentChunks,
           s.stores.ragChunks.filter (fun r => r.documentId != documentId),
           s.stores.vectors⟩, s.clock + 1⟩) := by
    rw [ragChunkDeleteMany, extCall_ok env _ _ (hf _)]
  have hd2 : parentChunkDeleteMany env documentId
      ⟨⟨s.stores.documents, s.stores.parentChunks,
        s.stores.ragChunks.filter (fun r => r.documentId != documentId),
        s.stores.vectors⟩, s.clock + 1⟩
      = (Except.ok (),
         ⟨⟨s.stores.documents,
           s.stores.parentChunks.filter (fun p => p.documentId != documentId),
           (s.stores.ragChunks.filter (fun r => r.documentId != documentId)).filter
             (fun r => !((s.stores.parentChunks.filter
               (fun p => p.documentId == documentId)).any (fun p => p.id == r.parentChunkId))),
           s.stores.vectors⟩, s.clock + 2⟩) := by
    rw [parentChunkDeleteMany, extCall_ok env _ _ (hf _)]
  have hcreate : parentChunkCreate env documentId 0 []
      ⟨⟨s.stores.documents,
        s.stores.parentChunks.filter (fun p => p.documentId != documentId),
        (s.stores.ragChunks.filter (fun r => r.documentId != documentId)).filter
          (fun r => !((s.stores.parentChunks.filter
            (fun p => p.documentId == documentId)).any (fun p => p.id == r.parentChunkId))),
        s.stores.vectors⟩, s.clock + 2⟩
      = (Except.ok ⟨freshId (s.clock + 2), documentId, 0, []⟩,
         ⟨⟨s.stores.documents,
           s.stores.parentChunks.filter (fun p => p.documentId != documentId)
             ++ [⟨freshId (s.clock + 2), documentId, 0, []⟩],
           (s.stores.ragChunks.filter (fun r => r.documentId != documentId)).filter
             (fun r => !((s.stores.parentChunks.filter
               (fun p => p.documentId == documentId)).any (fun p => p.id == r.parentChunkId))),
           s.stores.vectors⟩, s.clock + 3⟩) := by
    rw [parentChunkCreate, extCall_ok env _ _ (hf _)]
  have hp : processSingleParent env documentId documentTitle scope ragSubtype [] 0
      ⟨⟨s.stores.documents,
        s.stores.parentChunks.filter (fun p => p.documentId != documentId),
        (s.stores.ragChunks.filter (fun r => r.documentId != documentId)).filter
          (fun r => !((s.stores.parentChunks.filter
            (fun p => p.documentId == documentId)).any (fun p => p.id == r.parentChunkId))),
        s.stores.vectors⟩, s.clock + 2⟩
      = (Except.ok (),
         ⟨⟨s.stores.documents,
           s.stores.parentChunks.filter (fun p => p.documentId != documentId)
             ++ [⟨freshId (s.clock + 2), documentId, 0, []⟩],
           (s.stores.ragChunks.filter (fun r => r.documentId != documentId)).filter
             (fun r => !((s.stores.parentChunks.filter
               (fun p => p.documentId == documentId)).any (fun p => p.id == r.parentChunkId))),
           s.stores.vectors⟩, s.clock + 3⟩) := by
    unfold processSingleParent
    apply tryCatch_pure_handler_of_ok
    rw [M_bind_ok _ _ _ _ _ hcreate]
    rfl
  show (ragChunkDeleteMany env documentId >>= fun _ =>
    parentChunkDeleteMany env documentId >>= fun _ =>
    processSingleParent env documentId documentTitle scope ragSubtype [] 0 >>= fun _ =>
    runRemainingParents env documentId documentTitle scope ragSubtype [] 1) s = _
  rw [M_bind_ok _ _ _ _ _ hd1]
  rw [M_bind_ok _ _ _ _ _ hd2]
  rw [M_bind_ok _ _ _ _ _ hp]
  rfl

/-- C10: for every input text (including the empty string) and every
maxLength, textSplitterForRag returns a list with at least one segment —
on empty input it returns the single empty segment — so the ingestion
orchestrator's zero-segment early-success branch is unreachable, and
ingesting a document with empty text (with no collaborator failing)
succeeds and creates exactly one ParentChunk row for the document, whose
text is the empty string. -/
theorem claim_C10_empty_text_one_parent :
    (∀ (text : Str) (maxLength : Nat), textSplitterForRag text maxLength ≠ []) ∧
    (∀ maxLength : Nat, textSplitterForRag [] maxLength = [[]]) ∧
    (∀ (env : IngestEnv) (documentId documentTitle : Str) (s : IngestState) (doc : DocRow),
      (∀ t, env.faults t = false) →
      alookup documentId s.stores.documents = some doc →
      doc.isIngested = false →
      ∃ s', embedAndStoreDocument env documentId [] documentTitle s = (Except.ok true, s') ∧
        s'.stores.parentChunks.filter (fun p => p.documentId == documentId)
          = [⟨freshId (s.clock + 3), documentId, 0, []⟩]) := by
  refine ⟨textSplitterForRag_ne_nil, textSplitterForRag_nil, ?_⟩
  intro env documentId documentTitle s doc hf hdoc hning
  have hphase := ingestParentsPhase_empty_parent env documentId documentTitle none
    doc.ragSubtype ⟨s.stores, s.clock + 1⟩ hf
  have hupd := documentUpdateIngested_ok env documentId true
    ⟨⟨s.stores.documents,
      s.stores.parentChunks.filter (fun p => p.documentId != documentId)
        ++ [⟨freshId (s.clock + 3), documentId, 0, []⟩],
      (s.stores.ragChunks.filter (fun r => r.documentId != documentId)).filter
        (fun r => !((s.stores.parentChunks.filter
          (fun p => p.documentId == documentId)).any (fun p => p.id == r.parentChunkId))),
      s.stores.vectors⟩, s.clock + 4⟩ doc (hf _) hdoc
  refine ⟨⟨⟨updateDocFlag documentId true s.stores.documents,
    s.stores.parentChunks.filter (fun p => p.documentId != documentId)
      ++ [⟨freshId (s.clock + 3), documentId, 0, []⟩],
    (s.stores.ragChunks.filter (fun r => r.documentId != documentId)).filter
      (fun r => !((s.stores.parentChunks.filter
        (fun p => p.documentId == documentId)).any (fun p => p.id == r.parentChunkId))),
    s.stores.vectors⟩, s.clock + 5⟩, ?_, ?_⟩
  · show ingestG env documentId [] documentTitle none s = _
    unfold ingestG
    apply tryCatch_pure_handler_of_ok
    rw [ingestBody_run env documentId [] documentTitle none s doc hdoc hning (hf _)]
    rw [textSplitterForRag_nil]
    rw [M_bind_ok _ _ _ _ _ hphase]
    rw [M_bind_ok _ _ _ _ _ hupd]
    exact M_pure_apply _ _
  · show (_ ++ [(⟨freshId (s.clock + 3), documentId, 0, []⟩ : ParentRow)]).filter
      (fun p => p.documentId == documentId) = _
    rw [List.filter_append, filter_doc_ne_then_eq]
    simp

theorem claim_C10_empty_text_one_parent_witness :
    ∃ s', embedAndStoreDocument envOk "doc".data [] "T".data stFresh = (Except.ok true, s') ∧
      s'.stores.parentChunks.filter (fun p => p.documentId == "doc".data)
        = [⟨freshId 3, "doc".data, 0, []⟩] :=
  claim_C10_empty_text_one_parent.2.2 envOk "doc".data "T".data stFresh
    { isIngested := false, ragSubtype := none } (fun _ => rfl) (by decide) (by decide)

/-! ### The rerank fallback (C5) -/

/-- C5: if the reranker collaborator returns an empty sequence (including
the case where the rerank call throws, which rerankDocuments converts to
an empty sequence), searchVectorDatabase returns the deduplicated
RRF-ordered candidate list unchanged — same elements, same order — and
not an empty result (whenever that candidate list is itself nonempty);
the query is assumed non-blank so that the pipeline runs at all. -/
theorem claim_C5_rerank_fallback (env : SearchEnv) (query : Str) (topK : Nat)
    (typeFilter : TypeFilter)
    (hq : (jsTrim query).isEmpty = false)
    (hr : rerankDocuments env query
      ((searchCandidates env query topK typeFilter).map (fun r => r.parentText)) none = []) :
    searchVectorDatabase env query topK typeFilter
      = searchCandidates env query topK typeFilter ∧
    (searchCandidates env query topK typeFilter ≠ [] →
      searchVectorDatabase env query topK typeFilter ≠ []) := by
  have hmain : searchVectorDatabase env query topK typeFilter
      = searchCandidates env query topK typeFilter := by
    unfold searchVectorDatabase
    rw [if_neg (by simp [hq])]
    simp only [searchBody]
    by_cases hc : (searchCandidates env query topK typeFilter).length = 0
    · rw [if_pos hc]
      simp only [List.length_eq_zero] at hc
      rw [hc]
    · rw [if_neg hc, hr]
      rfl
  exact ⟨hmain, fun hne => by rw [hmain]; exact hne⟩

theorem claim_C5_rerank_fallback_witness :
    (jsTrim "q".data).isEmpty = false ∧
    rerankDocuments envOkSearch "q".data
      ((searchCandidates envOkSearch "q".data 5 TypeFilter.all).map (fun r => r.parentText))
      none = [] ∧
    (searchVectorDatabase envOkSearch "q".data 5 TypeFilter.all
      = searchCandidates envOkSearch "q".data 5 TypeFilter.all ∧
    (searchCandidates envOkSearch "q".data 5 TypeFilter.all ≠ [] →
      searchVectorDatabase envOkSearch "q".data 5 TypeFilter.all ≠ [])) :=
  ⟨by decide, by with_unfolding_all decide,
   claim_C5_rerank_fallback envOkSearch "q".data 5 TypeFilter.all
     (by decide) (by with_unfolding_all decide)⟩

/-! ### Patient content is invisible to the general search (C1) -/

theorem buildFilter_matches_only_md (tf : TypeFilter) (md : Metadata)
    (h : matchesFilter (buildFilter tf) md = true) :
    md.type = "medicine".data ∨ md.type = "disease".data := by
  cases tf with
  | medicine =>
    simp only [buildFilter, matchesFilter, beq_iff_eq] at h
    exact Or.inl h
  | disease =>
    simp only [buildFilter, matchesFilter, beq_iff_eq] at h
    exact Or.inr h
  | all =>
    simp only [buildFilter, matchesFilter, List.any_cons, List.any_nil,
      Bool.or_false, Bool.or_eq_true, beq_iff_eq] at h
    rcases h with h | h
    · exact Or.inl h.symm
    · exact Or.inr h.symm

theorem matches_imp_nonpatient (tf : TypeFilter) (e : VecEntry)
    (h : matchesFilter (buildFilter tf) e.metadata = true) :
    (!(isPatientEntry e)) = true := by
  rcases buildFilter_matches_only_md tf e.metadata h with ht | ht <;>
    simp [isPatientEntry, ht]

theorem filter_of_imp {α : Type} (p q : α → Bool) (himp : ∀ x, p x = true → q x = true) :
    ∀ l : List α, l.filter p = (l.filter q).filter p := by
  intro l
  induction l with
  | nil => rfl
  | cons a rest ih =>
    cases hp : p a with
    | true =>
      have hq : q a = true := himp a hp
      simp [List.filter, hp, hq, ih]
    | false =>
      cases hq : q a with
      | true => simp [List.filter, hp, hq, ih]
      | false => simp [List.filter, hp, hq, ih]

theorem searchVectorDatabase_index_congr (env : SearchEnv) (idx₂ : List VecEntry)
    (query : Str) (topK : Nat) (tf : TypeFilter)
    (hfilter : env.index.filter (fun e => !(isPatientEntry e))
      = idx₂.filter (fun e => !(isPatientEntry e))) :
    searchVectorDatabase env query topK tf
      = searchVectorDatabase { env with index := idx₂ } query topK tf := by
  have hmatch : ∀ (l : List VecEntry),
      l.filter (fun e => matchesFilter (buildFilter tf) e.metadata)
        = (l.filter (fun e => !(isPatientEntry e))).filter
            (fun e => matchesFilter (buildFilter tf) e.metadata) :=
    filter_of_imp _ _ (fun e he => matches_imp_nonpatient tf e he)
  have hq : ∀ (qv : List Rat),
      pineconeQuery env qv topK (buildFilter tf)
        = pineconeQuery { env with index := idx₂ } qv topK (buildFilter tf) := by
    intro qv
    unfold pineconeQuery
    dsimp only
    rw [hmatch env.index, hfilter, ← hmatch idx₂]
  have hqs : querySimilarDocuments env query topK (buildFilter tf)
      = querySimilarDocuments { env with index := idx₂ } query topK (buildFilter tf) := by
    unfold querySimilarDocuments
    dsimp only
    cases env.embedQuery query with
    | error e => rfl
    | ok o =>
      cases o with
      | none => rfl
      | some qv =>
        cases hqf : env.queryFails with
        | true => simp [hqf]
        | false => simp [hqf, hq qv]
  unfold searchVectorDatabase searchBody searchCandidates getParentTexts rerankDocuments
  dsimp only
  rw [hqs]

/-- C1: for every query string, every topK, and every typeFilter value
(medicine, disease, or all), the general-purpose search
(searchVectorDatabase) never returns a result derived from a vector entry
whose metadata type tag is patient: the metadata filter it builds matches
only medicine and/or disease entries, so for any two vector-index states
differing only in patient-tagged entries, searchVectorDatabase returns
identical results. -/
theorem claim_C1_patient_always_excluded :
    (∀ (tf : TypeFilter) (md : Metadata),
      matchesFilter (buildFilter tf) md = true →
      md.type = "medicine".data ∨ md.type = "disease".data) ∧
    (∀ (env : SearchEnv) (idx₂ : List VecEntry) (query : Str) (topK : Nat) (tf : TypeFilter),
      env.index.filter (fun e => !(isPatientEntry e))
        = idx₂.filter (fun e => !(isPatientEntry e)) →
      searchVectorDatabase env query topK tf
        = searchVectorDatabase { env with index := idx₂ } query topK tf) :=
  ⟨buildFilter_matches_only_md, searchVectorDatabase_index_congr⟩

theorem claim_C1_patient_always_excluded_witness :
    ("medicine".data = "medicine".data ∨ "medicine".data = "disease".data) ∧
    searchVectorDatabase ce8env "q".data 5 TypeFilter.all
      = searchVectorDatabase { ce8env with index := ce8env.index ++ [patientEntry] }
          "q".data 5 TypeFilter.all :=
  ⟨claim_C1_patient_always_excluded.1 TypeFilter.medicine
     { documentId := "d".data, documentTitle := "T".data, parentChunkId := none,
       childText := "c".data, parentIndex := 0, childIndex := 0,
       type := "medicine".data, patient := false, patientId := none } (by decide),
   claim_C1_patient_always_excluded.2 ce8env (ce8env.index ++ [patientEntry])
     "q".data 5 TypeFilter.all (by with_unfolding_all decide)⟩

/-! ### The parent sort and the fixed top-10 cutoff (C6) -/

theorem parentCmp_neg (a b : Str × PAgg) : parentCmp b a = -parentCmp a b := by
  simp only [parentCmp]
  rw [show a.2.totalScore - b.2.totalScore = -(b.2.totalScore - a.2.totalScore) by ring, abs_neg]
  by_cases h : 1 / 1000 < |b.2.totalScore - a.2.totalScore|
  · rw [if_pos h, if_pos h]
  · rw [if_neg h, if_neg h]
    ring

theorem jsOrderedInsert_perm {α : Type} (cmp : α → α → Rat) (a : α) :
    ∀ l : List α, (jsOrderedInsert cmp a l).Perm (a :: l) := by
  intro l
  induction l with
  | nil => exact List.Perm.refl _
  | cons b rest ih =>
    simp only [jsOrderedInsert]
    by_cases h : cmp a b < 0
    · rw [if_pos h]
    · rw [if_neg h]
      exact (List.Perm.cons b ih).trans (List.Perm.swap a b rest)

theorem jsSort_perm {α : Type} (cmp : α → α → Rat) :
    ∀ (l acc : List α), (l.foldl (fun acc x => jsOrderedInsert cmp x acc) acc).Perm (acc ++ l) := by
  intro l
  induction l with
  | nil => intro acc; simp
  | cons x rest ih =>
    intro acc
    simp only [List.foldl_cons]
    refine (ih (jsOrderedInsert cmp x acc)).trans ?_
    refine (List.Perm.append_right rest (jsOrderedInsert_perm cmp x acc)).trans ?_
    exact List.perm_middle.symm.trans (List.Perm.refl _) |>.symm.symm

theorem jsSort_perm' {α : Type} (cmp : α → α → Rat) (l : List α) :
    (jsSort cmp l).Perm l :=
  jsSort_perm cmp l []

theorem jsOrderedInsert_chain {α : Type} (cmp : α → α → Rat)
    (hneg : ∀ a b, cmp b a = -cmp a b) (a : α) :
    ∀ l : List α, List.Chain' (fun x y => cmp x y ≤ 0) l →
      List.Chain' (fun x y => cmp x y ≤ 0) (jsOrderedInsert cmp a l) := by
  intro l
  induction l with
  | nil => intro _; exact List.chain'_singleton a
  | cons b rest ih =>
    intro hl
    simp only [jsOrderedInsert]
    by_cases h : cmp a b < 0
    · rw [if_pos h]
      exact List.chain'_cons'.mpr ⟨fun y hy => by
        simp only [List.head?_cons, Option.mem_def, Option.some.injEq] at hy
        rw [← hy]
        exact le_of_lt h, hl⟩
    · rw [if_neg h]
      have hba : cmp b a ≤ 0 := by
        rw [hneg]
        simpa using le_of_not_lt h
      refine List.chain'_cons'.mpr ⟨?_, ih hl.tail⟩
      intro y hy
      cases rest with
      | nil =>
        simp only [jsOrderedInsert, List.head?_cons, Option.mem_def, Option.some.injEq] at hy
        rw [← hy]
        exact hba
      | cons c rest' =>
        simp only [jsOrderedInsert] at hy
        by_cases hc : cmp a c < 0
        · rw [if_pos hc] at hy
          simp only [List.head?_cons, Option.mem_def, Option.some.injEq] at hy
          rw [← hy]
          exact hba
        · rw [if_neg hc] at hy
          simp only [List.head?_cons, Option.mem_def, Option.some.injEq] at hy
          rw [← hy]
          exact (List.chain'_cons.mp hl).1

theorem jsSort_chain {α : Type} (cmp : α → α → Rat)
    (hneg : ∀ a b, cmp b a = -cmp a b) :
    ∀ (l acc : List α), List.Chain' (fun x y => cmp x y ≤ 0) acc →
      List.Chain' (fun x y => cmp x y ≤ 0)
        (l.foldl (fun acc x => jsOrderedInsert cmp x acc) acc) := by
  intro l
  induction l with
  | nil => intro acc h; exact h
  | cons x rest ih =>
    intro acc h
    exact ih (jsOrderedInsert cmp x acc) (jsOrderedInsert_chain cmp hneg x acc h)

theorem dedupByText_length_le :
    ∀ (l : List ParentSearchResult) (seen : List Str),
      (dedupByText l seen).length ≤ l.length := by
  intro l
  induction l with
  | nil => intro seen; exact Nat.le_refl 0
  | cons r rest ih =>
    intro seen
    simp only [dedupByText]
    by_cases h : (r.parentText.isEmpty || seen.any (fun t => t == r.parentText)) = true
    · rw [if_pos h]
      exact Nat.le_succ_of_le (ih seen)
    · rw [if_neg h]
      simpa using ih (r.parentText :: seen)

theorem sortParents_length_le (entries : List (Str × PAgg)) :
    (sortParents entries).length ≤ 10 := by
  simp [sortParents]

theorem searchCandidates_length_le (env : SearchEnv) (query : Str) (topK : Nat)
    (tf : TypeFilter) : (searchCandidates env query topK tf).length ≤ 10 := by
  unfold searchCandidates
  by_cases hc : (querySimilarDocuments env query topK (buildFilter tf)).length = 0
  · rw [if_pos hc]
    exact Nat.zero_le 10
  · rw [if_neg hc]
    refine le_trans (dedupByText_length_le _ []) ?_
    rw [List.length_map]
    exact sortParents_length_le _

/-- C6: searchVectorDatabase selects its rerank candidates by a stable
sort of the aggregated parents that orders by totalScore descending and
breaks ties — pairs whose totalScore difference is below 0.001 — by
maxScore descending: the sort permutes the aggregated entries and keeps
exactly the top 10 regardless of the topK argument; on every pair whose
totalScore difference exceeds 0.001 the comparator is the totalScore
difference, on every pair whose difference is below 0.001 it is the
maxScore difference, and each adjacent pair of the kept list is ordered
accordingly.  (A difference of exactly 0.001 is a razor edge of the
exact-rational embedding, unreachable in the program's double arithmetic,
and is left unconstrained.) -/
theorem claim_C6_order_and_top10 :
    (∀ entries : List (Str × PAgg),
      sortParents entries = (jsSort parentCmp entries).take 10 ∧
      (jsSort parentCmp entries).Perm entries ∧
      (sortParents entries).length = min 10 entries.length) ∧
    (∀ a b : Str × PAgg, 1 / 1000 < |b.2.totalScore - a.2.totalScore| →
      parentCmp a b = b.2.totalScore - a.2.totalScore) ∧
    (∀ a b : Str × PAgg, |b.2.totalScore - a.2.totalScore| < 1 / 1000 →
      parentCmp a b = b.2.maxScore - a.2.maxScore) ∧
    (∀ entries : List (Str × PAgg),
      List.Chain' (fun x y =>
        (1 / 1000 < |y.2.totalScore - x.2.totalScore| →
          y.2.totalScore ≤ x.2.totalScore) ∧
        (|y.2.totalScore - x.2.totalScore| < 1 / 1000 →
          y.2.maxScore ≤ x.2.maxScore)) (sortParents entries)) ∧
    (∀ (env : SearchEnv) (query : Str) (topK : Nat) (tf : TypeFilter),
      (searchCandidates env query topK tf).length ≤ 10) := by
  refine ⟨?_, ?_, ?_, ?_, searchCandidates_length_le⟩
  · intro entries
    refine ⟨rfl, jsSort_perm' parentCmp entries, ?_⟩
    show ((jsSort parentCmp entries).take 10).length = min 10 entries.length
    rw [List.length_take, (jsSort_perm' parentCmp entries).length_eq]
  · intro a b h
    simp only [parentCmp]
    rw [if_pos h]
  · intro a b h
    simp only [parentCmp]
    rw [if_neg (not_lt.mpr h.le)]
  · intro entries
    have hch : List.Chain' (fun x y => parentCmp x y ≤ 0) (sortParents entries) :=
      (jsSort_chain parentCmp parentCmp_neg entries [] List.chain'_nil).take 10
    refine hch.imp ?_
    intro x y hxy
    constructor
    · intro h1
      have hc : parentCmp x y = y.2.totalScore - x.2.totalScore := by
        simp only [parentCmp]
        rw [if_pos h1]
      rw [hc] at hxy
      exact sub_nonpos.mp hxy
    · intro h2
      have hc : parentCmp x y = y.2.maxScore - x.2.maxScore := by
        simp only [parentCmp]
        rw [if_neg (not_lt.mpr h2.le)]
      rw [hc] at hxy
      exact sub_nonpos.mp hxy

set_option maxRecDepth 40000 in
theorem claim_C6_order_and_top10_witness :
    parentCmp ("A".data, ⟨1, 0, [], []⟩) ("B".data, ⟨0, 1, [], []⟩) = 0 - 1 ∧
    parentCmp ("A".data, ⟨0, 0, [], []⟩) ("B".data, ⟨0, 1, [], []⟩) = 1 - 0 ∧
    (searchCandidates ce8env "q".data 99 TypeFilter.all).length ≤ 10 :=
  ⟨claim_C6_order_and_top10.2.1 ("A".data, ⟨1, 0, [], []⟩) ("B".data, ⟨0, 1, [], []⟩)
     (by with_unfolding_all decide),
   claim_C6_order_and_top10.2.2.1 ("A".data, ⟨0, 0, [], []⟩) ("B".data, ⟨0, 1, [], []⟩)
     (by with_unfolding_all decide),
   claim_C6_order_and_top10.2.2.2.2 ce8env "q".data 99 TypeFilter.all⟩

/-! ### The RRF aggregation computes the spec's formulas (C3) -/

theorem alookup_append_single_ne {α : Type} (pid k' : Str) (v : α) (hne : k' ≠ pid) :
    ∀ m : List (Str × α), alookup pid (m ++ [(k', v)]) = alookup pid m := by
  intro m
  induction m with
  | nil => simp [alookup, hne]
  | cons kv rest ih =>
    by_cases h : kv.1 = pid
    · simp [alookup, h]
    · simp [alookup, h, ih]

theorem alookup_append_single_self {α : Type} (pid : Str) (v : α) :
    ∀ m : List (Str × α), alookup pid m = none → alookup pid (m ++ [(pid, v)]) = some v := by
  intro m
  induction m with
  | nil => intro _; simp [alookup]
  | cons kv rest ih =>
    intro hm
    by_cases h : kv.1 = pid
    · rw [alookup] at hm
      rw [if_pos h] at hm
      cases hm
    · rw [alookup] at hm
      rw [if_neg h] at hm
      simp only [List.cons_append, alookup, if_neg h]
      exact ih hm

theorem alookup_aggMap (pid k₀ : Str) (n : Nat) (r : ChildResult) :
    ∀ m : List (Str × PAgg),
      alookup pid (m.map (fun kv => if kv.1 == k₀ then
        (kv.1, { kv.2 with totalScore := kv.2.totalScore + 1 / ((n : Rat) + 60), maxScore := max kv.2.maxScore r.score }) else kv))
      = if k₀ = pid then
          (alookup pid m).map (fun v =>
            { v with totalScore := v.totalScore + 1 / ((n : Rat) + 60), maxScore := max v.maxScore r.score })
        else alookup pid m := by
  intro m
  induction m with
  | nil => by_cases h : k₀ = pid <;> simp [alookup, h]
  | cons kv rest ih =>
    rcases kv with ⟨k', v⟩
    have hmap : ((k', v) :: rest).map (fun kv => if kv.1 == k₀ then
        (kv.1, { kv.2 with totalScore := kv.2.totalScore + 1 / ((n : Rat) + 60), maxScore := max kv.2.maxScore r.score }) else kv)
      = (if (k' == k₀) = true then
          (k', { v with totalScore := v.totalScore + 1 / ((n : Rat) + 60), maxScore := max v.maxScore r.score }) else (k', v))
        :: rest.map (fun kv => if kv.1 == k₀ then
          (kv.1, { kv.2 with totalScore := kv.2.totalScore + 1 / ((n : Rat) + 60), maxScore := max kv.2.maxScore r.score }) else kv) := by
      simp
    rw [hmap]
    by_cases hk' : k' = k₀
    · subst hk'
      simp only [beq_self_eq_true, if_true]
      by_cases hp : k' = pid
      · subst hp
        simp [alookup, ih]
      · simp only [alookup, if_neg hp, ih]
    · have hb : (k' == k₀) = false := by simpa using hk'
      rw [hb]
      simp only [Bool.false_eq_true, if_false]
      by_cases hp : k' = pid
      · subst hp
        have hk0 : ¬ k₀ = k' := fun he => hk' he.symm
        simp [alookup, if_neg hk0]
      · simp only [alookup, if_neg hp, ih]

theorem aggUpdate_lookup_other (m : List (Str × PAgg)) (n : Nat) (r : ChildResult)
    (pid : Str) (hne : r.parentChunkId ≠ pid) :
    alookup pid (aggUpdate m n r) = alookup pid m := by
  unfold aggUpdate
  by_cases he : r.parentChunkId.isEmpty = true
  · rw [if_pos he]
  · rw [if_neg he]
    cases hd : alookup r.parentChunkId m with
    | some d =>
      dsimp only
      rw [alookup_aggMap pid r.parentChunkId n r m, if_neg hne]
    | none =>
      dsimp only
      exact alookup_append_single_ne pid r.parentChunkId _ hne m

theorem aggUpdate_self_some (m : List (Str × PAgg)) (n : Nat) (r : ChildResult)
    (pid : Str) (d : PAgg) (hrp : r.parentChunkId = pid) (hpid : pid ≠ [])
    (hm : alookup pid m = some d) :
    alookup pid (aggUpdate m n r)
      = some { d with totalScore := d.totalScore + 1 / ((n : Rat) + 60), maxScore := max d.maxScore r.score } := by
  unfold aggUpdate
  rw [hrp]
  rw [if_neg (by simp [List.isEmpty_iff, hpid])]
  rw [hm]
  dsimp only
  rw [alookup_aggMap pid pid n r m, if_pos rfl, hm]
  rfl

theorem aggUpdate_self_none (m : List (Str × PAgg)) (n : Nat) (r : ChildResult)
    (pid : Str) (hrp : r.parentChunkId = pid) (hpid : pid ≠ [])
    (hm : alookup pid m = none) :
    alookup pid (aggUpdate m n r)
      = some ⟨1 / ((n : Rat) + 60), r.score, r.documentId, r.documentTitle⟩ := by
  unfold aggUpdate
  rw [hrp]
  rw [if_neg (by simp [List.isEmpty_iff, hpid])]
  rw [hm]
  dsimp only
  exact alookup_append_single_self pid _ m hm

theorem rrfTotalFrom_nil (n : Nat) (pid : Str) : rrfTotalFrom n pid [] = 0 := rfl

theorem rrfTotalFrom_cons_match (n : Nat) (pid : Str) (r : ChildResult)
    (rest : List ChildResult) (h : (r.parentChunkId == pid) = true) :
    rrfTotalFrom n pid (r :: rest)
      = 1 / ((n : Rat) + 60) + rrfTotalFrom (n + 1) pid rest := by
  simp [rrfTotalFrom, rrfRanksFrom, List.enumFrom, h]

theorem rrfTotalFrom_cons_nomatch (n : Nat) (pid : Str) (r : ChildResult)
    (rest : List ChildResult) (h : (r.parentChunkId == pid) = false) :
    rrfTotalFrom n pid (r :: rest) = rrfTotalFrom (n + 1) pid rest := by
  simp [rrfTotalFrom, rrfRanksFrom, List.enumFrom, h]

theorem hitScores_cons_match (pid : Str) (r : ChildResult) (rest : List ChildResult)
    (h : (r.parentChunkId == pid) = true) :
    hitScores pid (r :: rest) = r.score :: hitScores pid rest := by
  simp [hitScores, h]

theorem hitScores_cons_nomatch (pid : Str) (r : ChildResult) (rest : List ChildResult)
    (h : (r.parentChunkId == pid) = false) :
    hitScores pid (r :: rest) = hitScores pid rest := by
  simp [hitScores, h]

theorem aggFold_lookup (pid : Str) (hpid : pid ≠ []) :
    ∀ (rs : List ChildResult) (n : Nat) (m : List (Str × PAgg)),
      alookup pid (aggFoldFrom n rs m)
        = match alookup pid m with
          | some d => some { d with totalScore := d.totalScore + rrfTotalFrom n pid rs, maxScore := (hitScores pid rs).foldl max d.maxScore }
          | none =>
            match rs.find? (fun r => r.parentChunkId == pid) with
            | none => none
            | some r0 => some ⟨rrfTotalFrom n pid rs, (hitScores pid rs).foldl max r0.score, r0.documentId, r0.documentTitle⟩ := by
  intro rs
  induction rs with
  | nil =>
    intro n m
    cases hm : alookup pid m with
    | some d => simp [aggFoldFrom, hm, rrfTotalFrom_nil, hitScores]
    | none => simp [aggFoldFrom, hm, List.find?]
  | cons r rest ih =>
    intro n m
    have hstep : aggFoldFrom n (r :: rest) m = aggFoldFrom (n + 1) rest (aggUpdate m n r) := rfl
    rw [hstep, ih (n + 1) (aggUpdate m n r)]
    by_cases hr : (r.parentChunkId == pid) = true
    · have hrp : r.parentChunkId = pid := by simpa using hr
      cases hm : alookup pid m with
      | some d =>
        rw [aggUpdate_self_some m n r pid d hrp hpid hm]
        rw [rrfTotalFrom_cons_match n pid r rest hr, hitScores_cons_match pid r rest hr]
        simp [add_assoc]
      | none =>
        rw [aggUpdate_self_none m n r pid hrp hpid hm]
        rw [rrfTotalFrom_cons_match n pid r rest hr, hitScores_cons_match pid r rest hr]
        have hfind : List.find? (fun x => x.parentChunkId == pid) (r :: rest) = some r := by
          simp only [List.find?, hr]
        rw [hfind]
        simp [max_self]
    · have hrb : (r.parentChunkId == pid) = false := by simpa using hr
      have hrp : r.parentChunkId ≠ pid := by simpa using hrb
      rw [aggUpdate_lookup_other m n r pid hrp]
      rw [rrfTotalFrom_cons_nomatch n pid r rest hrb, hitScores_cons_nomatch pid r rest hrb]
      have hfind : List.find? (fun x => x.parentChunkId == pid) (r :: rest)
          = List.find? (fun x => x.parentChunkId == pid) rest := by
        simp only [List.find?, hrb]
      rw [hfind]

theorem aggFold_no_empty_key :
    ∀ (rs : List ChildResult) (n : Nat) (m : List (Str × PAgg)),
      alookup [] m = none → alookup [] (aggFoldFrom n rs m) = none := by
  intro rs
  induction rs with
  | nil => intro n m hm; exact hm
  | cons r rest ih =>
    intro n m hm
    have hstep : aggFoldFrom n (r :: rest) m = aggFoldFrom (n + 1) rest (aggUpdate m n r) := rfl
    rw [hstep]
    apply ih
    by_cases hre : r.parentChunkId = []
    · unfold aggUpdate
      rw [if_pos (by simp [List.isEmpty_iff, hre])]
      exact hm
    · rw [aggUpdate_lookup_other m n r [] hre]
      exact hm

theorem aggregateParents_eq (rs : List ChildResult) :
    aggregateParents rs = aggFoldFrom 0 rs [] := rfl

theorem foldl_max_mem : ∀ (l : List Rat) (a : Rat), l.foldl max a = a ∨ l.foldl max a ∈ l := by
  intro l
  induction l with
  | nil => intro a; exact Or.inl rfl
  | cons x rest ih =>
    intro a
    rw [List.foldl_cons]
    rcases ih (max a x) with h | h
    · rw [h]
      rcases max_choice a x with h2 | h2
      · exact Or.inl h2
      · rw [h2]
        exact Or.inr (List.mem_cons_self x rest)
    · exact Or.inr (List.mem_cons_of_mem x h)

theorem le_foldl_max_init : ∀ (l : List Rat) (a : Rat), a ≤ l.foldl max a := by
  intro l
  induction l with
  | nil => intro a; exact le_refl a
  | cons x rest ih =>
    intro a
    rw [List.foldl_cons]
    exact le_trans (le_max_left a x) (ih (max a x))

theorem le_foldl_max_of_mem : ∀ (l : List Rat) (a x : Rat), x ∈ l → x ≤ l.foldl max a := by
  intro l
  induction l with
  | nil => intro a x hx; cases hx
  | cons y rest ih =>
    intro a x hx
    rw [List.foldl_cons]
    rcases List.mem_cons.mp hx with rfl | hx
    · exact le_trans (le_max_right a x) (le_foldl_max_init rest (max a x))
    · exact ih (max a y) x hx

theorem rrfContribution_nonneg (i : Nat) : 0 ≤ 1 / ((i : Rat) + 60) := by positivity

theorem rrfContribution_antitone {a b : Nat} (hab : a ≤ b) :
    1 / ((b : Rat) + 60) ≤ 1 / ((a : Rat) + 60) := by
  apply one_div_le_one_div_of_le
  · positivity
  · have : (a : Rat) ≤ (b : Rat) := by exact_mod_cast hab
    linarith

theorem sum_map_take_le (l : List Nat) (n : Nat) :
    (((l.take n).map (fun i : Nat => 1 / ((i : Rat) + 60))).sum)
      ≤ ((l.map (fun i : Nat => 1 / ((i : Rat) + 60))).sum) := by
  conv_rhs => rw [← List.take_append_drop n l]
  rw [List.map_append, List.sum_append]
  refine le_add_of_nonneg_right ?_
  apply List.sum_nonneg
  intro x hx
  rcases List.mem_map.mp hx with ⟨i, _, rfl⟩
  exact rrfContribution_nonneg i

theorem sum_forall2_le {l₁ l₂ : List Nat}
    (h : List.Forall₂ (fun a b => a ≤ b) l₁ l₂) :
    ((l₂.map (fun i : Nat => 1 / ((i : Rat) + 60))).sum)
      ≤ ((l₁.map (fun i : Nat => 1 / ((i : Rat) + 60))).sum) := by
  induction h with
  | nil => exact le_refl 0
  | cons hab htail ih =>
    simp only [List.map_cons, List.sum_cons]
    exact add_le_add (rrfContribution_antitone hab) ih

/-- C3: after aggregation over the returned child-hit list, each distinct
parent-chunk id's totalScore equals the sum of 1 / (i + 60) over the
zero-based ranks i at which that parent's child hits appear, and its
maxScore equals the maximum raw similarity score among those hits;
consequently a parent appearing strictly more times at comparable ranks
than another (each of the other's ranks dominated pairwise by one of its
own, in order) has totalScore ≥ the other's. -/
theorem claim_C3_rrf_aggregation :
    (∀ (childResults : List ChildResult) (pid : Str) (d : PAgg),
      alookup pid (aggregateParents childResults) = some d →
      d.totalScore = ((rrfRanks pid childResults).map (fun i : Nat => 1 / ((i : Rat) + 60))).sum ∧
      d.maxScore ∈ hitScores pid childResults ∧
      (∀ sc ∈ hitScores pid childResults, sc ≤ d.maxScore)) ∧
    (∀ (childResults : List ChildResult) (pA pB : Str) (dA dB : PAgg),
      alookup pA (aggregateParents childResults) = some dA →
      alookup pB (aggregateParents childResults) = some dB →
      (rrfRanks pB childResults).length < (rrfRanks pA childResults).length →
      List.Forall₂ (fun a b => a ≤ b)
        ((rrfRanks pA childResults).take (rrfRanks pB childResults).length)
        (rrfRanks pB childResults) →
      dB.totalScore ≤ dA.totalScore) := by
  have main : ∀ (childResults : List ChildResult) (pid : Str) (d : PAgg),
      alookup pid (aggregateParents childResults) = some d →
      d.totalScore = ((rrfRanks pid childResults).map (fun i : Nat => 1 / ((i : Rat) + 60))).sum ∧
      d.maxScore ∈ hitScores pid childResults ∧
      (∀ sc ∈ hitScores pid childResults, sc ≤ d.maxScore) := by
    intro rs pid d hd
    by_cases hpid : pid = []
    · rw [hpid, aggregateParents_eq, aggFold_no_empty_key rs 0 [] rfl] at hd
      cases hd
    · rw [aggregateParents_eq, aggFold_lookup pid hpid rs 0 []] at hd
      simp only [alookup] at hd
      cases hfind : rs.find? (fun r => r.parentChunkId == pid) with
      | none => rw [hfind] at hd; cases hd
      | some r0 =>
        rw [hfind] at hd
        cases hd
        have hr0p : (r0.parentChunkId == pid) = true := by
          have h := List.find?_some hfind
          simpa using h
        have hr0mem : r0 ∈ rs := List.mem_of_find?_eq_some hfind
        have hscore_mem : r0.score ∈ hitScores pid rs := by
          simp only [hitScores, List.mem_map]
          exact ⟨r0, List.mem_filter.mpr ⟨hr0mem, hr0p⟩, rfl⟩
        refine ⟨rfl, ?_, ?_⟩
        · rcases foldl_max_mem (hitScores pid rs) r0.score with h | h
          · rw [h]; exact hscore_mem
          · exact h
        · intro sc hsc
          exact le_foldl_max_of_mem _ _ _ hsc
  refine ⟨main, ?_⟩
  intro rs pA pB dA dB hA hB hlen hdom
  have htA := (main rs pA dA hA).1
  have htB := (main rs pB dB hB).1
  rw [htA, htB]
  exact le_trans (sum_forall2_le hdom) (sum_map_take_le _ _)

set_option maxRecDepth 40000 in
theorem claim_C3_rrf_aggregation_witness :
    ((1 : Rat)/60 + 1/62
        = ((rrfRanks "A".data c3rs).map (fun i : Nat => 1 / ((i : Rat) + 60))).sum ∧
      (9 : Rat)/10 ∈ hitScores "A".data c3rs ∧
      (∀ sc ∈ hitScores "A".data c3rs, sc ≤ (9 : Rat)/10)) ∧
    ((⟨1/61, 8/10, "d".data, "T".data⟩ : PAgg).totalScore
      ≤ (⟨1/60 + 1/62, 9/10, "d".data, "T".data⟩ : PAgg).totalScore) :=
  ⟨claim_C3_rrf_aggregation.1 c3rs "A".data ⟨1/60 + 1/62, 9/10, "d".data, "T".data⟩
     (by with_unfolding_all decide),
   claim_C3_rrf_aggregation.2 c3rs "A".data "B".data
     ⟨1/60 + 1/62, 9/10, "d".data, "T".data⟩ ⟨1/61, 8/10, "d".data, "T".data⟩
     (by with_unfolding_all decide) (by with_unfolding_all decide)
     (by with_unfolding_all decide)
     (by with_unfolding_all decide)⟩

end FypRag
